import Mathlib

/-!
Verification development for the VigilMap analytics core.

This file gives a shallow embedding of the two analytical components of the
repository — the geo-domain anomaly detector (`anomaly.ts`) and the brief
synthesis cascade (`briefs.ts`) together with the shared event schema
(`types/index.ts`) — and proves the behavioural properties stated in the
specification against that embedding.

Modelling conventions:
* JavaScript numbers are embedded as exact rationals (`ℚ`); the only
  irrational quantity produced by the code, `Math.sqrt`, is embedded as
  `Real.sqrt`, so statistics live in `ℝ`.
* `Array.prototype.sort` is required by ECMAScript to be stable; with a
  consistent comparator its result is the unique stable sort, which we model
  with an insertion-based stable sort `sortStable` (element `x` is inserted
  after all earlier elements that do not compare strictly after `x`).
* JavaScript `Map`s and plain objects preserve insertion order; they are
  embedded as association lists that append newly seen keys at the end.
* The outbound HTTP call of the cascade is modelled by an oracle
  `responses : Nat → ProviderResponse` giving the parsed response of the
  n-th request issued during one invocation.
-/

-- ────────────────────────────────────────────────────────────────────
-- §1  Shared event schema (src/types/index.ts)
-- ────────────────────────────────────────────────────────────────────

/-- Closed domain enumeration of `types/index.ts`. -/
inductive Domain
  | health | climate | conflict | economic | disaster | labor | science
deriving DecidableEq

/-- Closed, totally ordered severity enumeration. -/
inductive Severity
  | info | low | medium | high | critical
deriving DecidableEq

/-- `SEVERITY_ORDER` of `types/index.ts`: info < low < medium < high < critical. -/
def SEVERITY_ORDER : Severity → Nat
  | .info => 0
  | .low => 1
  | .medium => 2
  | .high => 3
  | .critical => 4

/-- The string form of a domain value (TypeScript domains are string literals). -/
def domainToString : Domain → String
  | .health => ("health")
  | .climate => ("climate")
  | .conflict => ("conflict")
  | .economic => ("economic")
  | .disaster => ("disaster")
  | .labor => ("labor")
  | .science => ("science")

/-- The string form of a severity value. -/
def severityToString : Severity → String
  | .info => ("info")
  | .low => ("low")
  | .medium => ("medium")
  | .high => ("high")
  | .critical => ("critical")

/-- `DOMAIN_ICONS` of `types/index.ts`. -/
def DOMAIN_ICONS : Domain → String
  | .disaster => ("🌋")
  | .climate => ("🌡️")
  | .health => ("🏥")
  | .conflict => ("⚔️")
  | .economic => ("💰")
  | .labor => ("✊")
  | .science => ("🔬")

/-- `EventLocation`.  The TypeScript fields `lat`/`lng` are `number`s, but the
detector guards them with `!ev.location?.lat` style presence checks, so they
are embedded as optional rationals (`none` models `undefined`/`null`). -/
structure EventLocation where
  lat : Option ℚ
  lng : Option ℚ
  country : String
  region : String
  label : String
deriving DecidableEq

/-- `VigilEvent`, the unified event record.  `timestamp` is embedded as the
epoch-milliseconds value that `new Date(e.timestamp).getTime()` yields for the
ISO-8601 string; the never-read free-form `metadata` map is omitted. -/
structure VigilEvent where
  id : String
  timestamp : Int
  domain : Domain
  category : String
  severity : Severity
  title : String
  description : String
  location : EventLocation
  source : String
  sourceUrl : String
  confidence : ℚ
  tags : List String
  relatedEvents : Option (List String)
deriving DecidableEq

-- ────────────────────────────────────────────────────────────────────
-- §2  Stable sort (model of Array.prototype.sort with a comparator)
-- ────────────────────────────────────────────────────────────────────

/-- Insert `x` into `l`, placing it immediately before the first element `y`
with `lt x y = true` (so after every earlier element that is not strictly
greater under the comparator — the stable position). -/
def insertS {α : Type} (lt : α → α → Bool) (x : α) : List α → List α
  | [] => [x]
  | y :: ys => if lt x y then x :: y :: ys else y :: insertS lt x ys

/-- Stable sort: fold the input left-to-right, inserting each element into the
accumulator at its stable position.  `lt a b = true` means the comparator
orders `a` strictly before `b` (comparator value < 0). -/
def sortStable {α : Type} (lt : α → α → Bool) (l : List α) : List α :=
  l.foldl (fun acc x => insertS lt x acc) []

-- ────────────────────────────────────────────────────────────────────
-- §3  Geo-domain anomaly detector (src/anomaly.ts)
-- ────────────────────────────────────────────────────────────────────

/-- Geographic grid resolution in degrees (`CELL_SIZE`). -/
def CELL_SIZE : Int := 10

/-- Z-score threshold `Z_ELEVATED` (worth noting). -/
def Z_ELEVATED : ℝ := 1.0

/-- Z-score threshold `Z_SIGNIFICANT` (worth flagging). -/
def Z_SIGNIFICANT : ℝ := 1.5

/-- Z-score threshold `Z_CRITICAL` (worth alerting). -/
def Z_CRITICAL : ℝ := 2.5

/-- Minimum events in a cell to bother computing stats (`MIN_EVENTS_FOR_SIGNAL`). -/
def MIN_EVENTS_FOR_SIGNAL : Nat := 3

/-- `cellKey`: `Math.floor(lat / CELL_SIZE) * CELL_SIZE` for each axis.  The
source renders the pair as the string `"row:col"`; since that rendering is
injective on integers the key is embedded as the integer pair itself, and
`cellKeyString` recovers the string form. -/
def cellKey (lat lng : ℚ) : Int × Int :=
  (⌊lat / (CELL_SIZE : ℚ)⌋ * CELL_SIZE, ⌊lng / (CELL_SIZE : ℚ)⌋ * CELL_SIZE)

/-- The string `"row:col"` form of a cell key (template `` `${row}:${col}` ``). -/
def cellKeyString (k : Int × Int) : String :=
  toString k.1 ++ (":") ++ toString k.2

/-- `cellCentre`: parse the key back and add half a cell on each axis. -/
def cellCentre (k : Int × Int) : ℚ × ℚ :=
  ((k.1 : ℚ) + (CELL_SIZE : ℚ) / 2, (k.2 : ℚ) + (CELL_SIZE : ℚ) / 2)

/-- Welford accumulator state (`WelfordState`). -/
structure WelfordState where
  n : Nat
  mean : ℚ
  M2 : ℚ
deriving DecidableEq

/-- `welfordUpdate`: one step of Welford's online algorithm. -/
def welfordUpdate (state : WelfordState) (value : ℚ) : WelfordState :=
  let n := state.n + 1
  let delta := value - state.mean
  let mean := state.mean + delta / (n : ℚ)
  let delta2 := value - mean
  let M2 := state.M2 + delta * delta2
  ⟨n, mean, M2⟩

/-- `welfordFinalize`: population mean and standard deviation
(`stddev = Math.sqrt(M2 / n)`; `0` when fewer than two samples). -/
noncomputable def welfordFinalize (state : WelfordState) : ℚ × ℝ :=
  if state.n < 2 then (state.mean, 0)
  else (state.mean, Real.sqrt ((state.M2 / (state.n : ℚ) : ℚ) : ℝ))

/-- JavaScript truthiness of an optional number: `undefined`, `null` and `0`
are all falsy (`!ev.location?.lat`). -/
def truthyNum : Option ℚ → Bool
  | none => false
  | some q => decide (q ≠ 0)

/-- The cell an event is aggregated into, or `none` when the event fails the
detector's `!ev.location?.lat || !ev.location?.lng` guard.  Note that the
guard uses JavaScript falsiness, so a coordinate that is exactly `0` is
treated like a missing coordinate. -/
def eventCellKey (e : VigilEvent) : Option (Int × Int) :=
  if truthyNum e.location.lat && truthyNum e.location.lng then
    some (cellKey ((e.location.lat).getD 0) ((e.location.lng).getD 0))
  else none

/-- Severity tier of an anomaly signal (`'elevated' | 'significant' | 'critical'`). -/
inductive SigSeverity
  | elevated | significant | critical
deriving DecidableEq

/-- Tier rank used by the final sort (`{ critical: 2, significant: 1, elevated: 0 }`). -/
def sigOrder : SigSeverity → Nat
  | .critical => 2
  | .significant => 1
  | .elevated => 0

/-- `AnomalySignal`.  The `zscore` field stores `Math.round(z * 10) / 10`,
which is always rational, so it is embedded as `ℚ`. -/
structure AnomalySignal where
  id : String
  domain : Domain
  label : String
  count : Nat
  zscore : ℚ
  severity : SigSeverity
  lat : ℚ
  lng : ℚ
  regionLabel : String
  events : List VigilEvent
deriving DecidableEq

/-- Comparator for the frequency sort inside `regionLabel`
(`(a, b) => b[1] - a[1]`, i.e. larger count strictly first). -/
def freqLt (a b : String × Nat) : Bool :=
  decide (b.2 < a.2)

/-- Increment the count of `l` in an insertion-ordered frequency list
(`freq[l] = (freq[l] ?? 0) + 1` on a plain object). -/
def bumpFreq : List (String × Nat) → String → List (String × Nat)
  | [], l => [(l, 1)]
  | (l', n) :: rest, l =>
    if l' = l then (l', n + 1) :: rest else (l', n) :: bumpFreq rest l

/-- `regionLabel`: most frequent non-empty `region || country` string among the
cell's events (ties keep first encounter, by stability of the sort), falling
back to a cardinal-direction label synthesised from the cell centre. -/
def regionLabel (events : List VigilEvent) (cellLat cellLng : ℚ) : String :=
  let labels := (events.map fun e =>
    if e.location.region ≠ ("") then e.location.region else e.location.country
    ).filter fun l => l ≠ ("")
  if labels ≠ [] then
    let freq := labels.foldl bumpFreq []
    ((sortStable freqLt freq).headI).1
  else
    let ns := if 0 ≤ cellLat then ("N") else ("S")
    let ew := if 0 ≤ cellLng then ("E") else ("W")
    toString |⌊cellLat + 1/2⌋| ++ ("°") ++ ns ++ (" ") ++ toString |⌊cellLng + 1/2⌋| ++ ("°") ++ ew

/-- Append an event to its cell's list inside one domain's insertion-ordered
cell map. -/
def addToCell : List ((Int × Int) × List VigilEvent) → Int × Int → VigilEvent →
    List ((Int × Int) × List VigilEvent)
  | [], k, e => [(k, [e])]
  | (k', l) :: rest, k, e =>
    if k' = k then (k', l ++ [e]) :: rest else (k', l) :: addToCell rest k e

/-- Append an event to its domain's cell map inside the insertion-ordered
domain map (`groups` in step 1 of `detectAnomalies`). -/
def addToDomain : List (Domain × List ((Int × Int) × List VigilEvent)) → Domain →
    Int × Int → VigilEvent → List (Domain × List ((Int × Int) × List VigilEvent))
  | [], d, k, e => [(d, [(k, [e])])]
  | (d', m) :: rest, d, k, e =>
    if d' = d then (d', addToCell m k e) :: rest
    else (d', m) :: addToDomain rest d k e

/-- Step 1 of `detectAnomalies`: group events by domain, then by 10°×10° cell,
skipping events that fail the coordinate presence guard. -/
def groupEvents (events : List VigilEvent) :
    List (Domain × List ((Int × Int) × List VigilEvent)) :=
  events.foldl
    (fun gs e =>
      match eventCellKey e with
      | none => gs
      | some k => addToDomain gs e.domain k e)
    []

/-- The signal record pushed by the inner loop of `detectAnomalies` for a
cell that passed both filters. -/
noncomputable def mkSignal (d : Domain) (mean : ℚ) (stddev : ℝ)
    (k : Int × Int) (evs : List VigilEvent) : AnomalySignal :=
  let zscore : ℝ := (((evs.length : ℚ) - mean : ℚ) : ℝ) / stddev
  let severity : SigSeverity :=
    if Z_CRITICAL ≤ zscore then .critical
    else if Z_SIGNIFICANT ≤ zscore then .significant
    else .elevated
  let centre := cellCentre k
  let label := regionLabel evs centre.1 centre.2
  { id := domainToString d ++ (":") ++ cellKeyString k
    domain := d
    label := DOMAIN_ICONS d ++ (" ") ++ label
    count := evs.length
    zscore := ((⌊zscore * 10 + 1/2⌋ : ℤ) : ℚ) / 10
    severity := severity
    lat := centre.1
    lng := centre.2
    regionLabel := label
    events := evs }

/-- Score one cell (the body of the inner loop of `detectAnomalies`): skip
cells with fewer than `MIN_EVENTS_FOR_SIGNAL` events or z-score below
`Z_ELEVATED`, otherwise build the signal record. -/
noncomputable def emitCell (d : Domain) (mean : ℚ) (stddev : ℝ)
    (k : Int × Int) (evs : List VigilEvent) : Option AnomalySignal :=
  if evs.length < MIN_EVENTS_FOR_SIGNAL then none
  else
    let zscore : ℝ := (((evs.length : ℚ) - mean : ℚ) : ℝ) / stddev
    if zscore < Z_ELEVATED then none
    else some (mkSignal d mean stddev k evs)

/-- Steps 2–5 of `detectAnomalies` for one domain: require at least two
populated cells, run Welford over the per-cell counts, skip flat distributions
(`stddev < 0.5`), then score each cell. -/
noncomputable def processDomain (d : Domain)
    (cells : List ((Int × Int) × List VigilEvent)) : List AnomalySignal :=
  if cells.length < 2 then []
  else
    let st := cells.foldl (fun s kl => welfordUpdate s (kl.2.length : ℚ)) ⟨0, 0, 0⟩
    let fin := welfordFinalize st
    if fin.2 < (0.5 : ℝ) then []
    else cells.filterMap fun kl => emitCell d fin.1 fin.2 kl.1 kl.2

/-- Final sort comparator of `detectAnomalies`: tier rank descending, then the
stored (rounded) z-score descending; `lt a b = true` iff the comparator puts
`a` strictly before `b`. -/
def signalLt (a b : AnomalySignal) : Bool :=
  decide (sigOrder b.severity < sigOrder a.severity) ||
    (decide (sigOrder b.severity = sigOrder a.severity) && decide (b.zscore < a.zscore))

/-- `detectAnomalies`: the main export of `anomaly.ts`. -/
noncomputable def detectAnomalies (events : List VigilEvent) : List AnomalySignal :=
  if events.length = 0 then []
  else
    sortStable signalLt
      (((groupEvents events).map fun dm => processDomain dm.1 dm.2).flatten)

/-- The cell map the detector builds for domain `d` (empty when `d` has no
located events). -/
def domainCells (events : List VigilEvent) (d : Domain) :
    List ((Int × Int) × List VigilEvent) :=
  (((groupEvents events).find? fun dm => decide (dm.1 = d)).map Prod.snd).getD []

/-- The Welford statistics (population mean, population stddev) the detector
computes for domain `d`. -/
noncomputable def domainStats (events : List VigilEvent) (d : Domain) : ℚ × ℝ :=
  welfordFinalize
    ((domainCells events d).foldl (fun s kl => welfordUpdate s (kl.2.length : ℚ)) ⟨0, 0, 0⟩)

/-- The unrounded z-score of a reported signal, reconstructed from the
signal's count and its domain's statistics. -/
noncomputable def rawZ (events : List VigilEvent) (s : AnomalySignal) : ℝ :=
  (((s.count : ℚ) - (domainStats events s.domain).1 : ℚ) : ℝ) /
    (domainStats events s.domain).2

/-- The grid cell of a reported signal, recovered from the stored cell centre
(inverse of `cellCentre`). -/
def signalCell (s : AnomalySignal) : Int × Int :=
  (⌊s.lat⌋ - 5, ⌊s.lng⌋ - 5)

-- ────────────────────────────────────────────────────────────────────
-- §4  Brief synthesis cascade (src/briefs.ts)
-- ────────────────────────────────────────────────────────────────────

/-- Provenance tag of a brief (`'ai' | 'local'`; the second constructor is
named `loc` because `local` is a Lean keyword). -/
inductive BriefSource
  | ai | loc
deriving DecidableEq

/-- `BriefResult`. -/
structure BriefResult where
  brief : String
  source : BriefSource
deriving DecidableEq

/-- Message roles of the OpenRouter chat API. -/
inductive Role
  | system | user | assistant
deriving DecidableEq

/-- `OpenRouterMessage`. -/
structure OpenRouterMessage where
  role : Role
  content : String
deriving DecidableEq

/-- The request body `tryModel` posts (`OpenRouterRequest`); the network
transfer itself is modelled by the response oracle. -/
structure OpenRouterRequest where
  model : String
  messages : List OpenRouterMessage
  max_tokens : Nat
  temperature : ℚ
deriving DecidableEq

/-- The parsed provider response (`response.status` plus the decoded
`OpenRouterResponse` payload): `errorMessage` is `data.error?.message` when an
`error` object is present, `content` is `data.choices?.[0]?.message?.content`. -/
structure ProviderResponse where
  status : Nat
  errorMessage : Option String
  content : Option String
deriving DecidableEq

/-- `response.ok` of the fetch API: status in the range 200–299. -/
def responseOk (r : ProviderResponse) : Bool :=
  decide (200 ≤ r.status) && decide (r.status ≤ 299)

/-- A thrown cascade error together with its `retryable` marker
(`Object.assign(new Error(msg), { retryable })`). -/
structure TryFailure where
  message : String
  retryable : Bool
deriving DecidableEq

/-- `TOP_N`: number of events kept in the prompt. -/
def TOP_N : Nat := 8

/-- `DELAY_MS`: inter-attempt delay.  The delay only affects timing, which the
embedding does not model, so no definition below consumes it. -/
def DELAY_MS : Nat := 2000

/-- `MODEL_CASCADE`: the ordered candidate model list. -/
def MODEL_CASCADE : List String :=
  [("google/gemma-3-12b-it:free"),
   ("openai/gpt-oss-20b:free"),
   ("openai/gpt-oss-120b:free"),
   ("meta-llama/llama-3.2-3b-instruct:free"),
   ("meta-llama/llama-3.3-70b-instruct:free")]

/-- `NO_SYSTEM_ROLE`: models whose requests must not contain a system-role
message. -/
def NO_SYSTEM_ROLE : List String :=
  [("google/gemma-3-12b-it:free"), ("google/gemma-3-27b-it:free")]

/-- `NO_KEY_MESSAGE`. -/
def NO_KEY_MESSAGE : String :=
  "Add VITE_OPENROUTER_API_KEY to .env.local to enable AI briefs.\nGet a free key at openrouter.ai"

/-- `normalizeMessages`: for models without system-role support, merge the
system prompt into the first user message.  (The source compares message
object references; in every call site the messages are distinct, so
structural equality is an adequate embedding.) -/
def normalizeMessages (model : String) (messages : List OpenRouterMessage) :
    List OpenRouterMessage :=
  if ¬ (NO_SYSTEM_ROLE.any fun m => decide (m = model)) then messages
  else
    match messages.find? fun m => decide (m.role = Role.system) with
    | none => messages
    | some systemMsg =>
      let rest := messages.filter fun m => ! decide (m.role = Role.system)
      match rest.find? fun m => decide (m.role = Role.user) with
      | none => rest
      | some firstUser =>
        rest.map fun m =>
          if m = firstUser then
            { m with content := systemMsg.content ++ "\n\n" ++ m.content }
          else m

/-- Comparator of the histogram sort in `localSummary`
(`(a, b) => b[1] - a[1]`). -/
def histLt (a b : Domain × Nat) : Bool :=
  decide (b.2 < a.2)

/-- Comparator of the urgent-event sort in `localSummary`
(`SEVERITY_ORDER[b.severity] - SEVERITY_ORDER[a.severity]`). -/
def urgentLt (a b : VigilEvent) : Bool :=
  decide (SEVERITY_ORDER b.severity < SEVERITY_ORDER a.severity)

/-- Increment the count of domain `d` in the insertion-ordered histogram
(`domainCounts[ev.domain] = (domainCounts[ev.domain] ?? 0) + 1`). -/
def bumpDomain : List (Domain × Nat) → Domain → List (Domain × Nat)
  | [], d => [(d, 1)]
  | (d', n) :: rest, d =>
    if d' = d then (d', n + 1) :: rest else (d', n) :: bumpDomain rest d

/-- The per-domain event histogram of `localSummary`, in insertion order. -/
def domainHistogram (events : List VigilEvent) : List (Domain × Nat) :=
  events.foldl (fun acc e => bumpDomain acc e.domain) []

/-- The histogram sorted by count descending (`Object.entries(...).sort`). -/
def sortedHist (events : List VigilEvent) : List (Domain × Nat) :=
  sortStable histLt (domainHistogram events)

/-- The up-to-three critical/high events of `localSummary`, severity rank
descending, ties in input order. -/
def urgentOf (events : List VigilEvent) : List VigilEvent :=
  (sortStable urgentLt
    (events.filter fun e =>
      decide (e.severity = Severity.critical) || decide (e.severity = Severity.high))).take 3

/-- `localSummary`: the deterministic no-network fallback summary. -/
def localSummary (events : List VigilEvent) : String :=
  if events.length = 0 then "No active events to summarise."
  else
    let domainLine := String.intercalate (", ")
      ((sortedHist events).map fun p => toString p.2 ++ (" ") ++ domainToString p.1)
    let urgent := urgentOf events
    let lines :=
      [toString events.length ++ (" active events across ") ++ domainLine ++ (".")] ++
      (if urgent.length ≠ 0 then
        [("Most significant: ") ++
          String.intercalate ("; ")
            (urgent.map fun e => e.title ++ (" (") ++ e.location.label ++ (")")) ++ (".")]
      else [])
    String.intercalate (" ") lines

/-- Model of JavaScript's `String.prototype.trim`: drop leading and trailing
whitespace.  (Defined over the character list so that concrete instances
evaluate inside the kernel.) -/
def jsTrim (s : String) : String :=
  ⟨(((s.toList.dropWhile Char.isWhitespace).reverse.dropWhile Char.isWhitespace).reverse)⟩

/-- Minimal model of the `JSON.stringify` escaping for the string values the
prompt embeds (quote, backslash and common control characters). -/
def jsonEscape (s : String) : String :=
  String.join (s.toList.map fun c =>
    if c = '"' then ("\\\"")
    else if c = '\\' then ("\\\\")
    else if c = '\n' then ("\\n")
    else if c = '\r' then ("\\r")
    else if c = '\t' then ("\\t")
    else String.singleton c)

/-- One trimmed event of the prompt payload (`title`, `severity`, `location`). -/
structure TrimmedEvent where
  title : String
  severity : Severity
  location : String
deriving DecidableEq

/-- `JSON.stringify` of one trimmed event. -/
def trimmedEventJson (t : TrimmedEvent) : String :=
  ("\x7b\"title\":\"") ++ jsonEscape t.title ++
    ("\",\"severity\":\"") ++ severityToString t.severity ++
    ("\",\"location\":\"") ++ jsonEscape t.location ++ ("\"\x7d")

/-- `JSON.stringify` of the trimmed event array. -/
def trimmedListJson (ts : List TrimmedEvent) : String :=
  ("[") ++ String.intercalate (",") (ts.map trimmedEventJson) ++ ("]")

/-- Comparator of the top-8 trim in `generateBrief`: severity descending, then
timestamp descending. -/
def topLt (a b : VigilEvent) : Bool :=
  decide (SEVERITY_ORDER b.severity < SEVERITY_ORDER a.severity) ||
    (decide (SEVERITY_ORDER b.severity = SEVERITY_ORDER a.severity) &&
      decide (b.timestamp < a.timestamp))

/-- The trimmed top-8 payload of `generateBrief`. -/
def top8 (events : List VigilEvent) : List TrimmedEvent :=
  ((sortStable topLt events).take TOP_N).map fun e =>
    ⟨e.title, e.severity, e.location.label⟩

/-- The two prompt messages built by `generateBrief`. -/
def briefMessages (events : List VigilEvent) (context : String) :
    List OpenRouterMessage :=
  [⟨Role.system,
    ("You are a concise global intelligence analyst. ") ++
      ("Summarize current events in 3-4 sentences. ") ++
      ("Focus on significant patterns, geographic concentrations, and what warrants monitoring. ") ++
      ("Be factual and direct. No bullet points.")⟩,
   ⟨Role.user,
    ("Summarize these ") ++ toString (top8 events).length ++ (" active events in ") ++
      context ++ (": ") ++ trimmedListJson (top8 events)⟩]

/-- The request body `tryModel` posts for one attempt. -/
def requestBody (model : String) (messages : List OpenRouterMessage) :
    OpenRouterRequest :=
  { model := model
    messages := normalizeMessages model messages
    max_tokens := 160
    temperature := 4/10 }

/-- `tryModel`: classify one provider response.  The HTTP POST of
`requestBody model messages` (with the bearer `apiKey`) is modelled by the
externally supplied `response`; note that the classification reads only the
response. -/
def tryModel (_model : String) (_messages : List OpenRouterMessage)
    (_apiKey : String) (response : ProviderResponse) : Except TryFailure String :=
  if response.status = 401 ∨ response.status = 403 then
    .error ⟨(response.errorMessage).getD
      (("HTTP ") ++ toString response.status ++ (" auth error")), false⟩
  else if response.status = 429 then
    .error ⟨("rate-limited"), true⟩
  else if ¬ responseOk response = true ∨ (response.errorMessage).isSome = true then
    .error ⟨(response.errorMessage).getD (("HTTP ") ++ toString response.status), true⟩
  else
    match (response.content).map jsTrim with
    | none => .error ⟨("empty response"), false⟩
    | some c => if c = ("") then .error ⟨("empty response"), false⟩ else .ok c

/-- Whether the result of a `tryModel` attempt is a success. -/
def isOkB : Except TryFailure String → Bool
  | .ok _ => true
  | .error _ => false

/-- The cascade loop of `generateBrief`: walk the candidate models, counting
issued requests; return on first success, break to the local fallback on a
non-retryable failure, fall back after exhaustion.  `calls` is the number of
requests already made, so attempt number `calls` consumes `responses calls`.
The inter-attempt delay affects only timing and is not modelled. -/
def runCascade (events : List VigilEvent) (messages : List OpenRouterMessage)
    (apiKey : String) (responses : Nat → ProviderResponse) :
    List String → Nat → BriefResult × Nat
  | [], calls => (⟨localSummary events, BriefSource.loc⟩, calls)
  | model :: rest, calls =>
    match tryModel model messages apiKey (responses calls) with
    | .ok brief => (⟨brief, BriefSource.ai⟩, calls + 1)
    | .error e =>
      if e.retryable then runCascade events messages apiKey responses rest (calls + 1)
      else (⟨localSummary events, BriefSource.loc⟩, calls + 1)

/-- Usability of the configured credential: the negation of the source's
`!apiKey || apiKey.trim() === ''` short-circuit guard. -/
def usableKey : Option String → Bool
  | none => false
  | some k => ! decide (jsTrim k = (""))

/-- `generateBrief`, instrumented with the number of outbound requests made
(second component).  `apiKey` models `import.meta.env.VITE_OPENROUTER_API_KEY`
and `responses` the sequence of provider responses received. -/
def generateBriefRun (events : List VigilEvent) (context : String)
    (apiKey : Option String) (responses : Nat → ProviderResponse) :
    BriefResult × Nat :=
  if usableKey apiKey = false then (⟨NO_KEY_MESSAGE, BriefSource.loc⟩, 0)
  else
    runCascade events (briefMessages events context)
      ((apiKey).getD ("")) responses MODEL_CASCADE 0

/-- `generateBrief`: the observable result of the cascade. -/
def generateBrief (events : List VigilEvent) (context : String)
    (apiKey : Option String) (responses : Nat → ProviderResponse) : BriefResult :=
  (generateBriefRun events context apiKey responses).1

-- ────────────────────────────────────────────────────────────────────
-- §5  Concrete instances used by witnesses and counterexamples
-- ────────────────────────────────────────────────────────────────────

/-- A concrete event with the fields the analytics core reads. -/
def mkEvent (d : Domain) (sev : Severity) (la ln : ℚ) (ttl rgn : String) : VigilEvent :=
  { id := ttl
    timestamp := 0
    domain := d
    category := ("")
    severity := sev
    title := ttl
    description := ("")
    location := { lat := some la, lng := some ln, country := (""), region := rgn, label := rgn }
    source := ("")
    sourceUrl := ("")
    confidence := 1
    tags := []
    relatedEvents := none }

/-- Disaster-domain events: cell (20,30). -/
def eA1 : VigilEvent := mkEvent Domain.disaster Severity.medium 25 35 ("E1") ("R1")

/-- Disaster-domain events: cell (20,50). -/
def eA2 : VigilEvent := mkEvent Domain.disaster Severity.medium 25 55 ("E2") ("R1")

/-- Disaster-domain events: cell (40,30). -/
def eA3 : VigilEvent := mkEvent Domain.disaster Severity.medium 45 35 ("E3") ("R1")

/-- Disaster-domain events: cell (40,50). -/
def eA4 : VigilEvent := mkEvent Domain.disaster Severity.medium 45 55 ("E4") ("R1")

/-- A disaster-domain snapshot with per-cell counts [9, 3, 3, 1]:
mean 4, population variance 9, stddev 3, z-score of the 9-cell 5/3. -/
def evA : List VigilEvent :=
  List.replicate 9 eA1 ++ List.replicate 3 eA2 ++ List.replicate 3 eA3 ++ [eA4]

/-- Conflict-domain events: cell (20,30). -/
def eB1 : VigilEvent := mkEvent Domain.conflict Severity.low 25 35 ("F1") ("R2")

/-- Conflict-domain events: cell (20,50). -/
def eB2 : VigilEvent := mkEvent Domain.conflict Severity.low 25 55 ("F2") ("R2")

/-- Conflict-domain events: cell (40,30). -/
def eB3 : VigilEvent := mkEvent Domain.conflict Severity.low 45 35 ("F3") ("R2")

/-- Conflict-domain events: cell (40,50). -/
def eB4 : VigilEvent := mkEvent Domain.conflict Severity.low 45 55 ("F4") ("R2")

/-- A conflict-domain snapshot with per-cell counts [27, 3, 1, 1]:
mean 8, population variance 121, stddev 11, z-score of the 27-cell 19/11. -/
def evB : List VigilEvent :=
  List.replicate 27 eB1 ++ List.replicate 3 eB2 ++ [eB3] ++ [eB4]

/-- Two domains whose reported cells tie on the rounded z-score (both 1.7)
but differ on the raw z-score (5/3 < 19/11). -/
def evAB : List VigilEvent := evA ++ evB

/-- The signal the detector reports for `evA`. -/
def sigA : AnomalySignal :=
  { id := ("disaster:20:30")
    domain := Domain.disaster
    label := ("🌋 R1")
    count := 9
    zscore := 17/10
    severity := SigSeverity.significant
    lat := 25
    lng := 35
    regionLabel := ("R1")
    events := List.replicate 9 eA1 }

/-- The signal the detector reports for `evB`. -/
def sigB : AnomalySignal :=
  { id := ("conflict:20:30")
    domain := Domain.conflict
    label := ("⚔️ R2")
    count := 27
    zscore := 17/10
    severity := SigSeverity.significant
    lat := 25
    lng := 35
    regionLabel := ("R2")
    events := List.replicate 27 eB1 }

/-- An event lying exactly on the equator: both coordinates are present and
are valid geographic values, yet `lat = 0` is falsy in JavaScript. -/
def evEquator : VigilEvent := mkEvent Domain.climate Severity.low 0 50 ("EQ") ("Gulf of Guinea")

/-- Three co-located health events: a single populated cell. -/
def evC7 : List VigilEvent := List.replicate 3 (mkEvent Domain.health Severity.low 5 5 ("H1") ("R3"))

/-- Events for the local-summary witness. -/
def eG1 : VigilEvent := mkEvent Domain.climate Severity.low 10 10 ("G1") ("L1")

/-- Events for the local-summary witness. -/
def eG2 : VigilEvent := mkEvent Domain.climate Severity.critical 10 10 ("G2") ("L2")

/-- Events for the local-summary witness. -/
def eG3 : VigilEvent := mkEvent Domain.conflict Severity.high 10 10 ("G3") ("L3")

/-- A three-event snapshot: histogram climate 2, conflict 1; one critical and
one high event. -/
def evC6 : List VigilEvent := [eG1, eG2, eG3]

/-- A successful provider response. -/
def respOk : ProviderResponse := ⟨200, none, some ("All quiet.")⟩

/-- An authentication-failure provider response. -/
def respAuth : ProviderResponse := ⟨401, some ("Invalid key"), none⟩

/-- A rate-limited provider response. -/
def respBusy : ProviderResponse := ⟨429, none, none⟩

/-- An oracle whose every response is a success. -/
def oracleOk : Nat → ProviderResponse := fun _ => respOk

/-- An oracle whose every response is an authentication failure. -/
def oracleAuth : Nat → ProviderResponse := fun _ => respAuth

/-- An oracle whose every response is a rate-limit rejection. -/
def oracleBusy : Nat → ProviderResponse := fun _ => respBusy

/-- The per-cell grouping of `evA`. -/
def cellsA : List ((Int × Int) × List VigilEvent) :=
  [((20, 30), List.replicate 9 eA1), ((20, 50), List.replicate 3 eA2),
   ((40, 30), List.replicate 3 eA3), ((40, 50), [eA4])]

/-- The per-cell grouping of `evB`. -/
def cellsB : List ((Int × Int) × List VigilEvent) :=
  [((20, 30), List.replicate 27 eB1), ((20, 50), List.replicate 3 eB2),
   ((40, 30), [eB3]), ((40, 50), [eB4])]

-- ────────────────────────────────────────────────────────────────────
-- §6  Specification predicates
-- ────────────────────────────────────────────────────────────────────

/-- Number of events of domain `d` in a snapshot. -/
def countDom (events : List VigilEvent) (d : Domain) : Nat :=
  (events.filter fun e => decide (e.domain = d)).length

/-- Association-list lookup used to reason about insertion-ordered maps. -/
def alistLookup {β : Type} : List (Domain × β) → Domain → Option β
  | [], _ => none
  | (d', b) :: rest, d => if d' = d then some b else alistLookup rest d

/-- The per-cell event counts of domain `d`, in the order the detector folds
them into the Welford state. -/
def cellCounts (events : List VigilEvent) (d : Domain) : List ℚ :=
  (domainCells events d).map fun kl => (kl.2.length : ℚ)

/-- Well-formedness of the detector's grouping structure: every event stored
under domain `d` and cell `k` belongs to `d` and has cell key `k`. -/
def GroupsWF (gs : List (Domain × List ((Int × Int) × List VigilEvent))) : Prop :=
  ∀ dm ∈ gs, ∀ kl ∈ dm.2, ∀ e ∈ kl.2, e.domain = dm.1 ∧ eventCellKey e = some kl.1

-- ────────────────────────────────────────────────────────────────────
-- §7  Stable-sort lemmas
-- ────────────────────────────────────────────────────────────────────

/-- Inserting permutes: `insertS lt x l` is `x :: l` up to order. -/
theorem insertS_perm {α : Type} (lt : α → α → Bool) (x : α) (l : List α) :
    (insertS lt x l).Perm (x :: l) := by
  induction l with
  | nil => simp [insertS]
  | cons y ys ih =>
    simp only [insertS]
    by_cases h : lt x y
    · simp [h]
    · simp only [h, Bool.false_eq_true, if_false]
      exact (ih.cons y).trans (List.Perm.swap x y ys)

/-- The stable sort permutes its input. -/
theorem sortStable_perm {α : Type} (lt : α → α → Bool) (l : List α) :
    (sortStable lt l).Perm l := by
  suffices h : ∀ (l acc : List α),
      (l.foldl (fun acc x => insertS lt x acc) acc).Perm (acc ++ l) by
    simpa using h l []
  intro l
  induction l with
  | nil => simp
  | cons x xs ih =>
    intro acc
    simp only [List.foldl_cons]
    exact (ih (insertS lt x acc)).trans
      (((insertS_perm lt x acc).append_right xs).trans List.perm_middle.symm)

/-- Membership in the stable sort. -/
theorem mem_sortStable {α : Type} (lt : α → α → Bool) (l : List α) (a : α) :
    a ∈ sortStable lt l ↔ a ∈ l :=
  (sortStable_perm lt l).mem_iff

/-- Membership in an insertion. -/
theorem mem_insertS {α : Type} (lt : α → α → Bool) (x : α) (l : List α) (a : α) :
    a ∈ insertS lt x l ↔ a = x ∨ a ∈ l := by
  rw [(insertS_perm lt x l).mem_iff, List.mem_cons]

/-- Insertion preserves sortedness, for an asymmetric comparator whose
non-strict complement is transitive. -/
theorem insertS_pairwise {α : Type} (lt : α → α → Bool)
    (hasym : ∀ a b, lt a b = true → lt b a = false)
    (htrans : ∀ a b c, lt b a = false → lt c b = false → lt c a = false)
    (x : α) (l : List α) (hl : l.Pairwise fun a b => lt b a = false) :
    (insertS lt x l).Pairwise fun a b => lt b a = false := by
  induction l with
  | nil => simp [insertS]
  | cons y ys ih =>
    rcases List.pairwise_cons.mp hl with ⟨hy, hys⟩
    simp only [insertS]
    by_cases h : lt x y
    · simp only [h, if_true]
      refine List.pairwise_cons.mpr ⟨?_, hl⟩
      intro z hz
      rcases List.mem_cons.mp hz with rfl | hz
      · exact hasym _ _ h
      · exact htrans x y z (hasym _ _ h) (hy z hz)
    · simp only [h, Bool.false_eq_true, if_false]
      refine List.pairwise_cons.mpr ⟨?_, ih hys⟩
      intro z hz
      rcases (mem_insertS lt x ys z).mp hz with rfl | hz
      · exact Bool.eq_false_iff.mpr h
      · exact hy z hz

/-- The stable sort is sorted: no later element compares strictly before an
earlier one. -/
theorem sortStable_pairwise {α : Type} (lt : α → α → Bool)
    (hasym : ∀ a b, lt a b = true → lt b a = false)
    (htrans : ∀ a b c, lt b a = false → lt c b = false → lt c a = false)
    (l : List α) :
    (sortStable lt l).Pairwise fun a b => lt b a = false := by
  suffices h : ∀ (l acc : List α), (acc.Pairwise fun a b => lt b a = false) →
      ((l.foldl (fun acc x => insertS lt x acc) acc).Pairwise fun a b => lt b a = false) by
    exact h l [] List.Pairwise.nil
  intro l
  induction l with
  | nil => intro acc h; simpa using h
  | cons x xs ih =>
    intro acc hacc
    simp only [List.foldl_cons]
    exact ih _ (insertS_pairwise lt hasym htrans x acc hacc)

/-- Insertion passes over a prefix it does not sort before. -/
theorem insertS_append {α : Type} (lt : α → α → Bool) (x : α) (l₁ l₂ : List α)
    (h : ∀ y ∈ l₁, lt x y = false) :
    insertS lt x (l₁ ++ l₂) = l₁ ++ insertS lt x l₂ := by
  induction l₁ with
  | nil => simp
  | cons y ys ih =>
    have hy : lt x y = false := h y (List.mem_cons_self y ys)
    simp only [List.cons_append, insertS, hy, Bool.false_eq_true, if_false,
      List.cons.injEq, true_and]
    exact ih fun z hz => h z (List.mem_cons_of_mem y hz)

/-- Insertion at the very end, when nothing sorts after `x`. -/
theorem insertS_all_false {α : Type} (lt : α → α → Bool) (x : α) (l : List α)
    (h : ∀ y ∈ l, lt x y = false) :
    insertS lt x l = l ++ [x] := by
  have := insertS_append lt x l [] h
  simpa using this

/-- Appending one element on the right turns the stable sort into one
insertion. -/
theorem sortStable_append_singleton {α : Type} (lt : α → α → Bool) (l : List α) (x : α) :
    sortStable lt (l ++ [x]) = insertS lt x (sortStable lt l) := by
  simp [sortStable, List.foldl_append]

/-- On a population whose sort key takes exactly two values, the stable sort
is the high bucket followed by the low bucket, each in input order. -/
theorem sortStable_two_bucket {α : Type} (key : α → Nat) (hi lo : Nat) (hlt : lo < hi)
    (l : List α) (hall : ∀ a ∈ l, key a = hi ∨ key a = lo) :
    sortStable (fun a b => decide (key b < key a)) l =
      (l.filter fun a => decide (key a = hi)) ++ (l.filter fun a => decide (key a = lo)) := by
  induction l using List.reverseRecOn with
  | nil => simp [sortStable]
  | append_singleton l x ih =>
    have hall' : ∀ a ∈ l, key a = hi ∨ key a = lo := fun a ha =>
      hall a (List.mem_append_left _ ha)
    have hx := hall x (List.mem_append_right _ (List.mem_singleton.mpr rfl))
    rw [sortStable_append_singleton, ih hall', List.filter_append, List.filter_append]
    have hhi : ∀ y ∈ l.filter (fun a => decide (key a = hi)),
        key y = hi := by
      intro y hy
      exact of_decide_eq_true (List.mem_filter.mp hy).2
    have hlo' : ∀ y ∈ l.filter (fun a => decide (key a = lo)),
        key y = lo := by
      intro y hy
      exact of_decide_eq_true (List.mem_filter.mp hy).2
    rcases hx with hxhi | hxlo
    · -- the new element belongs to the high bucket: it passes the high
      -- prefix and lands in front of the low bucket
      have hpass : ∀ y ∈ l.filter (fun a => decide (key a = hi)),
          decide (key y < key x) = false := by
        intro y hy
        simp [hhi y hy, hxhi]
      rw [insertS_append _ _ _ _ hpass]
      have hfx : (List.filter (fun a => decide (key a = hi)) [x]) = [x] := by
        simp [hxhi]
      have hfx' : (List.filter (fun a => decide (key a = lo)) [x]) = [] := by
        simp [hxhi]; omega
      rw [hfx, hfx']
      cases hl : l.filter (fun a => decide (key a = lo)) with
      | nil => simp [insertS]
      | cons z zs =>
        have hz : key z = lo := hlo' z (by rw [hl]; exact List.mem_cons_self z zs)
        have : decide (key z < key x) = true := by simp [hz, hxhi, hlt]
        simp [insertS, this]
    · -- the new element belongs to the low bucket: it passes everything
      have hpass1 : ∀ y ∈ l.filter (fun a => decide (key a = hi)),
          decide (key y < key x) = false := by
        intro y hy
        simp [hhi y hy, hxlo]; omega
      have hpass2 : ∀ y ∈ l.filter (fun a => decide (key a = lo)),
          decide (key y < key x) = false := by
        intro y hy
        simp [hlo' y hy, hxlo]
      have hfx : (List.filter (fun a => decide (key a = hi)) [x]) = [] := by
        simp [hxlo]; omega
      have hfx' : (List.filter (fun a => decide (key a = lo)) [x]) = [x] := by
        simp [hxlo]
      rw [hfx, hfx', List.append_nil, insertS_append _ _ _ _ hpass1,
        insertS_all_false _ _ _ hpass2]

-- ────────────────────────────────────────────────────────────────────
-- §8  Local-summary lemmas
-- ────────────────────────────────────────────────────────────────────

/-- Lookup after one histogram increment. -/
theorem bumpDomain_lookup (acc : List (Domain × Nat)) (d d' : Domain) :
    alistLookup (bumpDomain acc d) d' =
      if d' = d then some ((alistLookup acc d).getD 0 + 1) else alistLookup acc d' := by
  induction acc with
  | nil =>
    simp only [bumpDomain, alistLookup]
    by_cases h : d' = d
    · subst h
      simp
    · rw [if_neg (fun he : d = d' => h he.symm), if_neg h]
  | cons p rest ih =>
    obtain ⟨dh, n⟩ := p
    by_cases h1 : dh = d
    · subst h1
      simp only [bumpDomain, if_pos rfl, alistLookup]
      by_cases h2 : d' = dh
      · subst h2
        simp
      · rw [if_neg (fun he : dh = d' => h2 he.symm), if_neg h2,
          if_neg (fun he : dh = d' => h2 he.symm)]
    · simp only [bumpDomain, if_neg h1, alistLookup]
      by_cases h3 : dh = d'
      · subst h3
        rw [if_pos rfl, if_neg (fun he : dh = d => h1 he), if_pos rfl]
      · rw [if_neg h3, ih, if_neg h3]

/-- Keys after one histogram increment. -/
theorem bumpDomain_keys (acc : List (Domain × Nat)) (d : Domain) :
    (bumpDomain acc d).map Prod.fst =
      if d ∈ acc.map Prod.fst then acc.map Prod.fst else acc.map Prod.fst ++ [d] := by
  induction acc with
  | nil => simp [bumpDomain]
  | cons p rest ih =>
    obtain ⟨dh, n⟩ := p
    by_cases h1 : dh = d
    · subst h1
      simp [bumpDomain]
    · have h1' : ¬ d = dh := fun h => h1 h.symm
      by_cases h2 : d ∈ rest.map Prod.fst <;>
        simp [bumpDomain, h1, h1', h2, ih]

/-- Lookup of a member of an association list with distinct keys. -/
theorem alistLookup_of_mem {β : Type} (l : List (Domain × β))
    (hnd : (l.map Prod.fst).Nodup) (d : Domain) (b : β) (h : (d, b) ∈ l) :
    alistLookup l d = some b := by
  induction l with
  | nil => cases h
  | cons p rest ih =>
    obtain ⟨dh, bh⟩ := p
    rcases List.mem_cons.mp h with heq | hmem
    · cases heq
      simp [alistLookup]
    · have hd : dh ≠ d := by
        intro he
        subst he
        have : dh ∈ rest.map Prod.fst :=
          List.mem_map.mpr ⟨(dh, b), hmem, rfl⟩
        exact (List.nodup_cons.mp (by simpa using hnd)).1 this
      simp only [alistLookup, hd, if_false]
      exact ih (List.nodup_cons.mp (by simpa using hnd)).2 hmem

/-- Members of an association list from a successful lookup. -/
theorem mem_of_alistLookup {β : Type} (l : List (Domain × β)) (d : Domain) (b : β)
    (h : alistLookup l d = some b) : (d, b) ∈ l := by
  induction l with
  | nil => simp [alistLookup] at h
  | cons p rest ih =>
    obtain ⟨dh, bh⟩ := p
    by_cases hd : dh = d
    · subst hd
      have hb : bh = b := by
        have : alistLookup ((dh, bh) :: rest) dh = some bh := by
          simp [alistLookup]
        rw [this] at h
        exact Option.some.injEq .. |>.mp h
      subst hb
      exact List.mem_cons_self _ _
    · simp only [alistLookup, hd, if_false] at h
      exact List.mem_cons_of_mem _ (ih h)

/-- The histogram records exactly the per-domain event counts. -/
theorem domainHistogram_lookup (events : List VigilEvent) (d : Domain) :
    alistLookup (domainHistogram events) d =
      if countDom events d = 0 then none else some (countDom events d) := by
  induction events using List.reverseRecOn with
  | nil => simp [domainHistogram, countDom, alistLookup]
  | append_singleton l e ih =>
    have hfold : domainHistogram (l ++ [e]) = bumpDomain (domainHistogram l) e.domain := by
      simp [domainHistogram, List.foldl_append]
    have hcnt : ∀ d', countDom (l ++ [e]) d' =
        countDom l d' + (if e.domain = d' then 1 else 0) := by
      intro d'
      by_cases h : e.domain = d' <;>
        simp [countDom, List.filter_append, h]
    rw [hfold, bumpDomain_lookup, hcnt d]
    by_cases h : d = e.domain
    · subst h
      simp only [if_pos rfl, ih]
      by_cases h0 : countDom l e.domain = 0 <;> simp [h0]
    · have h' : ¬ e.domain = d := fun he => h he.symm
      rw [if_neg h, if_neg h', ih, Nat.add_zero]


/-- The histogram's keys are distinct. -/
theorem domainHistogram_keys_nodup (events : List VigilEvent) :
    ((domainHistogram events).map Prod.fst).Nodup := by
  induction events using List.reverseRecOn with
  | nil => simp [domainHistogram]
  | append_singleton l e ih =>
    have hfold : domainHistogram (l ++ [e]) = bumpDomain (domainHistogram l) e.domain := by
      simp [domainHistogram, List.foldl_append]
    rw [hfold, bumpDomain_keys]
    by_cases h : e.domain ∈ (domainHistogram l).map Prod.fst
    · simpa [h] using ih
    · simp only [h, if_false]
      exact List.Nodup.append ih (List.nodup_singleton _)
        (fun x hx hx' => h ((List.mem_singleton.mp hx') ▸ hx))

/-- Every entry of the sorted histogram carries the true positive count of
its domain. -/
theorem sortedHist_counts (events : List VigilEvent) (p : Domain × Nat)
    (hp : p ∈ sortedHist events) :
    p.2 = countDom events p.1 ∧ 0 < p.2 := by
  have hmem : p ∈ domainHistogram events := (mem_sortStable _ _ _).mp hp
  obtain ⟨d, n⟩ := p
  have hlook := alistLookup_of_mem _ (domainHistogram_keys_nodup events) d n hmem
  rw [domainHistogram_lookup] at hlook
  by_cases h0 : countDom events d = 0
  · simp [h0] at hlook
  · simp only [h0, if_false, Option.some.injEq] at hlook
    subst hlook
    exact ⟨rfl, Nat.pos_of_ne_zero h0⟩

/-- Every domain that occurs in the snapshot occurs in the sorted histogram. -/
theorem sortedHist_covers (events : List VigilEvent) (e : VigilEvent)
    (he : e ∈ events) : ∃ n, (e.domain, n) ∈ sortedHist events := by
  have hcnt : countDom events e.domain ≠ 0 := by
    have hmem : e ∈ events.filter fun x => decide (x.domain = e.domain) :=
      List.mem_filter.mpr ⟨he, by simp⟩
    intro h0
    rw [countDom, List.length_eq_zero] at h0
    rw [h0] at hmem
    cases hmem
  have hlook : alistLookup (domainHistogram events) e.domain =
      some (countDom events e.domain) := by
    rw [domainHistogram_lookup, if_neg hcnt]
  exact ⟨countDom events e.domain,
    (mem_sortStable _ _ _).mpr (mem_of_alistLookup _ _ _ hlook)⟩

/-- The sorted histogram is ordered by count descending. -/
theorem sortedHist_sorted (events : List VigilEvent) :
    (sortedHist events).Pairwise fun p q => q.2 ≤ p.2 := by
  have hasym : ∀ a b : Domain × Nat, histLt a b = true → histLt b a = false := by
    intro a b h
    simp only [histLt, decide_eq_true_eq] at h
    simp only [histLt, decide_eq_false_iff_not]
    omega
  have htrans : ∀ a b c : Domain × Nat,
      histLt b a = false → histLt c b = false → histLt c a = false := by
    intro a b c h1 h2
    simp only [histLt, decide_eq_false_iff_not] at h1 h2 ⊢
    omega
  have := sortStable_pairwise histLt hasym htrans (domainHistogram events)
  refine this.imp ?_
  intro a b h
  simp only [histLt, decide_eq_false_iff_not] at h
  omega

/-- The urgent list of `localSummary` is the critical events followed by the
high events, each in input order, truncated to three. -/
theorem urgentOf_eq (events : List VigilEvent) :
    urgentOf events =
      ((events.filter fun e => decide (e.severity = Severity.critical)) ++
        (events.filter fun e => decide (e.severity = Severity.high))).take 3 := by
  have hall : ∀ e ∈ (events.filter fun e =>
      decide (e.severity = Severity.critical) || decide (e.severity = Severity.high)),
      (fun x : VigilEvent => SEVERITY_ORDER x.severity) e = 4 ∨
        (fun x : VigilEvent => SEVERITY_ORDER x.severity) e = 3 := by
    intro e he
    have h := (List.mem_filter.mp he).2
    cases hs : e.severity <;> simp [hs, SEVERITY_ORDER] at h ⊢
  have h2 := sortStable_two_bucket (fun x : VigilEvent => SEVERITY_ORDER x.severity)
    4 3 (by omega) _ hall
  have hfc : (List.filter (fun a => decide ((fun x : VigilEvent => SEVERITY_ORDER x.severity) a = 4))
      (events.filter fun e =>
        decide (e.severity = Severity.critical) || decide (e.severity = Severity.high))) =
      events.filter fun e => decide (e.severity = Severity.critical) := by
    rw [List.filter_filter]
    apply List.filter_congr
    intro e _
    cases hs : e.severity <;> simp [hs, SEVERITY_ORDER]
  have hfh : (List.filter (fun a => decide ((fun x : VigilEvent => SEVERITY_ORDER x.severity) a = 3))
      (events.filter fun e =>
        decide (e.severity = Severity.critical) || decide (e.severity = Severity.high))) =
      events.filter fun e => decide (e.severity = Severity.high) := by
    rw [List.filter_filter]
    apply List.filter_congr
    intro e _
    cases hs : e.severity <;> simp [hs, SEVERITY_ORDER]
  unfold urgentOf
  rw [show urgentLt = (fun a b => decide ((fun x : VigilEvent => SEVERITY_ORDER x.severity) b <
    (fun x : VigilEvent => SEVERITY_ORDER x.severity) a)) from rfl]
  rw [h2, hfc, hfh]

-- ────────────────────────────────────────────────────────────────────
-- §9  Detector structure lemmas
-- ────────────────────────────────────────────────────────────────────

/-- Appending an event to a well-formed cell map preserves well-formedness. -/
theorem addToCell_wf (m : List ((Int × Int) × List VigilEvent)) (k : Int × Int)
    (e : VigilEvent) (d : Domain)
    (hm : ∀ kl ∈ m, ∀ x ∈ kl.2, x.domain = d ∧ eventCellKey x = some kl.1)
    (hd : e.domain = d) (hk : eventCellKey e = some k) :
    ∀ kl ∈ addToCell m k e, ∀ x ∈ kl.2, x.domain = d ∧ eventCellKey x = some kl.1 := by
  induction m with
  | nil =>
    intro kl hkl x hx
    simp only [addToCell, List.mem_singleton] at hkl
    subst hkl
    simp only [List.mem_singleton] at hx
    subst hx
    exact ⟨hd, hk⟩
  | cons p rest ih =>
    obtain ⟨k', l⟩ := p
    by_cases hkk : k' = k
    · subst hkk
      intro kl hkl x hx
      simp only [addToCell, if_pos rfl] at hkl
      rcases List.mem_cons.mp hkl with rfl | hmem
      · rcases List.mem_append.mp hx with hxl | hxe
        · exact hm (k', l) (List.mem_cons_self _ _) x hxl
        · rcases List.mem_singleton.mp hxe with rfl
          exact ⟨hd, hk⟩
      · exact hm kl (List.mem_cons_of_mem _ hmem) x hx
    · intro kl hkl x hx
      simp only [addToCell, if_neg hkk] at hkl
      rcases List.mem_cons.mp hkl with rfl | hmem
      · exact hm _ (List.mem_cons_self _ _) x hx
      · exact ih (fun q hq => hm q (List.mem_cons_of_mem _ hq)) kl hmem x hx

/-- Inserting an event into a well-formed grouping preserves
well-formedness. -/
theorem addToDomain_wf (gs : List (Domain × List ((Int × Int) × List VigilEvent)))
    (d : Domain) (k : Int × Int) (e : VigilEvent)
    (hg : GroupsWF gs) (hd : e.domain = d) (hk : eventCellKey e = some k) :
    GroupsWF (addToDomain gs d k e) := by
  induction gs with
  | nil =>
    intro dm hdm kl hkl x hx
    simp only [addToDomain, List.mem_singleton] at hdm
    subst hdm
    simp only [List.mem_singleton] at hkl
    subst hkl
    simp only [List.mem_singleton] at hx
    subst hx
    exact ⟨hd, hk⟩
  | cons p rest ih =>
    obtain ⟨d', m⟩ := p
    by_cases hdd : d' = d
    · subst hdd
      intro dm hdm
      simp only [addToDomain, if_pos rfl] at hdm
      rcases List.mem_cons.mp hdm with rfl | hmem
      · exact addToCell_wf m k e d'
          (fun kl hkl x hx => hg (d', m) (List.mem_cons_self _ _) kl hkl x hx) hd hk
      · exact hg dm (List.mem_cons_of_mem _ hmem)
    · intro dm hdm
      simp only [addToDomain, if_neg hdd] at hdm
      rcases List.mem_cons.mp hdm with rfl | hmem
      · exact hg _ (List.mem_cons_self _ _)
      · exact ih (fun q hq => hg q (List.mem_cons_of_mem _ hq)) dm hmem

/-- The grouping built by step 1 of `detectAnomalies` is well-formed: every
stored event belongs to the domain and cell it is stored under. -/
theorem groupEvents_wf (events : List VigilEvent) : GroupsWF (groupEvents events) := by
  induction events using List.reverseRecOn with
  | nil =>
    intro dm hdm
    simp [groupEvents] at hdm
  | append_singleton l e ih =>
    have hfold : groupEvents (l ++ [e]) =
        (match eventCellKey e with
          | none => groupEvents l
          | some k => addToDomain (groupEvents l) e.domain k e) := by
      simp [groupEvents, List.foldl_append]
    rw [hfold]
    cases hk : eventCellKey e with
    | none => exact ih
    | some k => exact addToDomain_wf _ _ _ _ ih rfl hk

/-- Keys after inserting one event into the domain map. -/
theorem addToDomain_keys (gs : List (Domain × List ((Int × Int) × List VigilEvent)))
    (d : Domain) (k : Int × Int) (e : VigilEvent) :
    (addToDomain gs d k e).map Prod.fst =
      if d ∈ gs.map Prod.fst then gs.map Prod.fst else gs.map Prod.fst ++ [d] := by
  induction gs with
  | nil => simp [addToDomain]
  | cons p rest ih =>
    obtain ⟨dh, m⟩ := p
    by_cases h1 : dh = d
    · subst h1
      simp [addToDomain]
    · have h1' : ¬ d = dh := fun h => h1 h.symm
      by_cases h2 : d ∈ rest.map Prod.fst <;>
        simp [addToDomain, h1, h1', h2, ih]

/-- The domain keys of the grouping are distinct. -/
theorem groupEvents_keys_nodup (events : List VigilEvent) :
    ((groupEvents events).map Prod.fst).Nodup := by
  induction events using List.reverseRecOn with
  | nil => simp [groupEvents]
  | append_singleton l e ih =>
    have hfold : groupEvents (l ++ [e]) =
        (match eventCellKey e with
          | none => groupEvents l
          | some k => addToDomain (groupEvents l) e.domain k e) := by
      simp [groupEvents, List.foldl_append]
    rw [hfold]
    cases hk : eventCellKey e with
    | none => exact ih
    | some k =>
      rw [addToDomain_keys]
      by_cases h : e.domain ∈ (groupEvents l).map Prod.fst
      · simpa [h] using ih
      · simp only [h, if_false]
        exact List.Nodup.append ih (List.nodup_singleton _)
          (fun x hx hx' => h ((List.mem_singleton.mp hx') ▸ hx))

/-- Finding a member of a list of pairs with distinct first components. -/
theorem find?_eq_of_mem_nodup {β : Type}
    (l : List (Domain × β)) (hnd : (l.map Prod.fst).Nodup)
    (p : Domain × β) (hp : p ∈ l) :
    l.find? (fun x => decide (x.1 = p.1)) = some p := by
  induction l with
  | nil => cases hp
  | cons q rest ih =>
    rcases List.mem_cons.mp hp with rfl | hmem
    · rw [List.find?_cons_of_pos _ (by simp)]
    · have hq : ¬ (q.1 = p.1) := by
        intro he
        have : q.1 ∈ rest.map Prod.fst := he ▸ List.mem_map.mpr ⟨p, hmem, rfl⟩
        exact (List.nodup_cons.mp (by simpa using hnd)).1 this
      rw [List.find?_cons_of_neg _ (by simp [hq])]
      exact ih (List.nodup_cons.mp (by simpa using hnd)).2 hmem

/-- The detector's cell map for a grouped domain is that domain's group. -/
theorem domainCells_eq (events : List VigilEvent)
    (dm : Domain × List ((Int × Int) × List VigilEvent))
    (h : dm ∈ groupEvents events) : domainCells events dm.1 = dm.2 := by
  rw [domainCells, find?_eq_of_mem_nodup _ (groupEvents_keys_nodup events) dm h]
  rfl

/-- Inversion of `emitCell`: a produced signal passed both per-cell filters
and is the literal record `mkSignal` builds. -/
theorem emitCell_eq_some (d : Domain) (mean : ℚ) (stddev : ℝ) (k : Int × Int)
    (evs : List VigilEvent) (s : AnomalySignal)
    (h : emitCell d mean stddev k evs = some s) :
    MIN_EVENTS_FOR_SIGNAL ≤ evs.length ∧
    ¬ ((((evs.length : ℚ) - mean : ℚ) : ℝ) / stddev < Z_ELEVATED) ∧
    s = mkSignal d mean stddev k evs := by
  simp only [emitCell] at h
  by_cases h1 : evs.length < MIN_EVENTS_FOR_SIGNAL
  · rw [if_pos h1] at h
    exact Option.noConfusion h
  · rw [if_neg h1] at h
    by_cases h2 : (((evs.length : ℚ) - mean : ℚ) : ℝ) / stddev < Z_ELEVATED
    · rw [if_pos h2] at h
      exact Option.noConfusion h
    · rw [if_neg h2] at h
      exact ⟨Nat.le_of_not_lt h1, h2, ((Option.some.injEq ..).mp h).symm⟩

/-- Inversion of `processDomain`: the domain passed both per-domain filters
and the signal comes from `emitCell` on one of its cells, with the statistics
computed by the Welford fold over the domain's per-cell counts. -/
theorem mem_processDomain (d : Domain) (cells : List ((Int × Int) × List VigilEvent))
    (s : AnomalySignal) (hs : s ∈ processDomain d cells) :
    2 ≤ cells.length ∧
    ¬ ((welfordFinalize
        (cells.foldl (fun st kl => welfordUpdate st (kl.2.length : ℚ)) ⟨0, 0, 0⟩)).2 < (0.5 : ℝ)) ∧
    ∃ kl ∈ cells,
      emitCell d
        (welfordFinalize
          (cells.foldl (fun st kl => welfordUpdate st (kl.2.length : ℚ)) ⟨0, 0, 0⟩)).1
        (welfordFinalize
          (cells.foldl (fun st kl => welfordUpdate st (kl.2.length : ℚ)) ⟨0, 0, 0⟩)).2
        kl.1 kl.2 = some s := by
  simp only [processDomain] at hs
  by_cases h1 : cells.length < 2
  · rw [if_pos h1] at hs
    cases hs
  · rw [if_neg h1] at hs
    by_cases h2 : (welfordFinalize
        (cells.foldl (fun st kl => welfordUpdate st (kl.2.length : ℚ)) ⟨0, 0, 0⟩)).2 < (0.5 : ℝ)
    · rw [if_pos h2] at hs
      cases hs
    · rw [if_neg h2] at hs
      obtain ⟨kl, hkl, hemit⟩ := List.mem_filterMap.mp hs
      exact ⟨Nat.le_of_not_lt h1, h2, kl, hkl, hemit⟩

/-- Master inversion for `detectAnomalies`: every reported signal comes from
one grouped cell of its own domain, both domain-level filters and both
cell-level filters passed, and the signal is the record built from the
domain's Welford statistics. -/
theorem detect_master (events : List VigilEvent) (s : AnomalySignal)
    (hs : s ∈ detectAnomalies events) :
    ∃ k evsCell,
      (k, evsCell) ∈ domainCells events s.domain ∧
      (∀ e ∈ evsCell, e.domain = s.domain ∧ eventCellKey e = some k) ∧
      2 ≤ (domainCells events s.domain).length ∧
      ¬ ((domainStats events s.domain).2 < (0.5 : ℝ)) ∧
      MIN_EVENTS_FOR_SIGNAL ≤ evsCell.length ∧
      ¬ ((((evsCell.length : ℚ) - (domainStats events s.domain).1 : ℚ) : ℝ) /
          (domainStats events s.domain).2 < Z_ELEVATED) ∧
      s = mkSignal s.domain (domainStats events s.domain).1
          (domainStats events s.domain).2 k evsCell := by
  rw [detectAnomalies] at hs
  by_cases h0 : events.length = 0
  · simp [h0] at hs
  · rw [if_neg h0, mem_sortStable, List.mem_flatten] at hs
    obtain ⟨blk, hblk, hsblk⟩ := hs
    rw [List.mem_map] at hblk
    obtain ⟨dm, hdm, rfl⟩ := hblk
    obtain ⟨h2, hstd, kl, hkl, hemit⟩ := mem_processDomain dm.1 dm.2 s hsblk
    obtain ⟨hmin, hz, hsig⟩ := emitCell_eq_some _ _ _ _ _ _ hemit
    have hdom : s.domain = dm.1 := by rw [hsig]; rfl
    have hcells : domainCells events s.domain = dm.2 := by
      rw [hdom]
      exact domainCells_eq events dm hdm
    have hstats : domainStats events s.domain =
        welfordFinalize
          (dm.2.foldl (fun st kl => welfordUpdate st (kl.2.length : ℚ)) ⟨0, 0, 0⟩) := by
      rw [domainStats, hcells]
    refine ⟨kl.1, kl.2, ?_, ?_, ?_, ?_, hmin, ?_, ?_⟩
    · rw [hcells]
      simpa using hkl
    · intro e he
      have hwf := groupEvents_wf events dm hdm kl hkl e he
      exact ⟨hwf.1.trans hdom.symm, hwf.2⟩
    · rw [hcells]
      exact h2
    · rw [hstats]
      exact hstd
    · rw [hstats]
      exact hz
    · rw [hstats, hdom]
      exact hsig

-- ────────────────────────────────────────────────────────────────────
-- §10  Cascade lemmas
-- ────────────────────────────────────────────────────────────────────

/-- `tryModel` on an authentication failure: a non-retryable error,
whatever the model, messages and key. -/
theorem tryModel_auth (m : String) (msgs : List OpenRouterMessage) (key : String)
    (r : ProviderResponse) (h : r.status = 401 ∨ r.status = 403) :
    tryModel m msgs key r =
      .error ⟨(r.errorMessage).getD (("HTTP ") ++ toString r.status ++ (" auth error")), false⟩ := by
  rw [tryModel, if_pos h]

/-- The classification of a response does not depend on the model, the
messages or the key (they only shape the request). -/
theorem tryModel_congr (m m' : String) (msgs msgs' : List OpenRouterMessage)
    (key key' : String) (r : ProviderResponse) :
    tryModel m msgs key r = tryModel m' msgs' key' r := rfl

/-- Bounds on the number of requests one cascade run makes. -/
theorem runCascade_calls_bound (ev : List VigilEvent) (msgs : List OpenRouterMessage)
    (key : String) (responses : Nat → ProviderResponse) :
    ∀ (models : List String) (calls : Nat),
      calls ≤ (runCascade ev msgs key responses models calls).2 ∧
      (runCascade ev msgs key responses models calls).2 ≤ calls + models.length := by
  intro models
  induction models with
  | nil =>
    intro calls
    simp [runCascade]
  | cons m rest ih =>
    intro calls
    cases h : tryModel m msgs key (responses calls) with
    | ok brief =>
      have hrw : runCascade ev msgs key responses (m :: rest) calls =
          (⟨brief, BriefSource.ai⟩, calls + 1) := by
        simp [runCascade, h]
      rw [hrw]
      simp only [List.length_cons]
      omega
    | error e =>
      by_cases hr : e.retryable
      · have hrw : runCascade ev msgs key responses (m :: rest) calls =
            runCascade ev msgs key responses rest (calls + 1) := by
          simp [runCascade, h, hr]
        rw [hrw]
        have hb := ih (calls + 1)
        simp only [List.length_cons]
        omega
      · have hrw : runCascade ev msgs key responses (m :: rest) calls =
            (⟨localSummary ev, BriefSource.loc⟩, calls + 1) := by
          simp [runCascade, h, hr]
        rw [hrw]
        simp only [List.length_cons]
        omega

/-- Outcome characterization of one cascade run: either the final attempt
succeeded (provenance `ai`, its text returned, all earlier attempts of this
run failed), or every attempt of this run failed and the result is the local
fallback. -/
theorem runCascade_outcome (ev : List VigilEvent) (msgs : List OpenRouterMessage)
    (key : String) (responses : Nat → ProviderResponse) :
    ∀ (models : List String) (calls : Nat),
      ((runCascade ev msgs key responses models calls).1.source = BriefSource.ai ∧
        calls < (runCascade ev msgs key responses models calls).2 ∧
        tryModel ("") msgs key
            (responses ((runCascade ev msgs key responses models calls).2 - 1)) =
          .ok (runCascade ev msgs key responses models calls).1.brief ∧
        (∀ i, calls ≤ i → i + 1 < (runCascade ev msgs key responses models calls).2 →
          isOkB (tryModel ("") msgs key (responses i)) = false)) ∨
      ((runCascade ev msgs key responses models calls).1 =
          ⟨localSummary ev, BriefSource.loc⟩ ∧
        (∀ i, calls ≤ i → i < (runCascade ev msgs key responses models calls).2 →
          isOkB (tryModel ("") msgs key (responses i)) = false)) := by
  intro models
  induction models with
  | nil =>
    intro calls
    right
    constructor
    · simp [runCascade]
    · intro i hi1 hi2
      simp [runCascade] at hi2
      omega
  | cons m rest ih =>
    intro calls
    cases h : tryModel m msgs key (responses calls) with
    | ok brief =>
      left
      have hrw : runCascade ev msgs key responses (m :: rest) calls =
          (⟨brief, BriefSource.ai⟩, calls + 1) := by
        simp [runCascade, h]
      rw [hrw]
      refine ⟨rfl, by omega, ?_, ?_⟩
      · simpa using h
      · intro i hi1 hi2
        simp at hi2
        omega
    | error e =>
      by_cases hr : e.retryable
      · have hrw : runCascade ev msgs key responses (m :: rest) calls =
            runCascade ev msgs key responses rest (calls + 1) := by
          simp [runCascade, h, hr]
        rw [hrw]
        have hfail : isOkB (tryModel ("") msgs key (responses calls)) = false := by
          have : tryModel ("") msgs key (responses calls) = .error e := h
          rw [this]
          rfl
        rcases ih (calls + 1) with ⟨hai, hlt, hok, hall⟩ | ⟨hloc, hall⟩
        · left
          refine ⟨hai, by omega, hok, ?_⟩
          intro i hi1 hi2
          by_cases hic : i = calls
          · subst hic
            exact hfail
          · exact hall i (by omega) hi2
        · right
          refine ⟨hloc, ?_⟩
          intro i hi1 hi2
          by_cases hic : i = calls
          · subst hic
            exact hfail
          · exact hall i (by omega) hi2
      · right
        have hrw : runCascade ev msgs key responses (m :: rest) calls =
            (⟨localSummary ev, BriefSource.loc⟩, calls + 1) := by
          simp [runCascade, h, hr]
        rw [hrw]
        refine ⟨rfl, ?_⟩
        intro i hi1 hi2
        simp at hi2
        have hic : i = calls := by omega
        subst hic
        have : tryModel ("") msgs key (responses i) = .error e := h
        rw [this]
        rfl

/-- Authentication abort: if any attempted response of a cascade run carries
status 401 or 403, that attempt is the last request of the run and the result
is the local fallback. -/
theorem runCascade_auth (ev : List VigilEvent) (msgs : List OpenRouterMessage)
    (key : String) (responses : Nat → ProviderResponse) :
    ∀ (models : List String) (calls i : Nat), calls ≤ i →
      i < (runCascade ev msgs key responses models calls).2 →
      ((responses i).status = 401 ∨ (responses i).status = 403) →
      (runCascade ev msgs key responses models calls).2 = i + 1 ∧
      (runCascade ev msgs key responses models calls).1 =
        ⟨localSummary ev, BriefSource.loc⟩ := by
  intro models
  induction models with
  | nil =>
    intro calls i hi1 hi2 hst
    simp [runCascade] at hi2
    omega
  | cons m rest ih =>
    intro calls i hi1 hi2 hst
    cases h : tryModel m msgs key (responses calls) with
    | ok brief =>
      have hrw : runCascade ev msgs key responses (m :: rest) calls =
          (⟨brief, BriefSource.ai⟩, calls + 1) := by
        simp [runCascade, h]
      rw [hrw] at hi2 ⊢
      simp at hi2
      have hic : i = calls := by omega
      subst hic
      have := tryModel_auth m msgs key (responses i) hst
      rw [this] at h
      cases h
    | error e =>
      by_cases hr : e.retryable
      · have hrw : runCascade ev msgs key responses (m :: rest) calls =
            runCascade ev msgs key responses rest (calls + 1) := by
          simp [runCascade, h, hr]
        rw [hrw] at hi2 ⊢
        by_cases hic : i = calls
        · subst hic
          have := tryModel_auth m msgs key (responses i) hst
          rw [this] at h
          have he : e = ⟨(responses i).errorMessage.getD
              (("HTTP ") ++ toString (responses i).status ++ (" auth error")), false⟩ := by
            cases h
            rfl
          rw [he] at hr
          cases hr
        · exact ih (calls + 1) i (by omega) hi2 hst
      · have hrw : runCascade ev msgs key responses (m :: rest) calls =
            (⟨localSummary ev, BriefSource.loc⟩, calls + 1) := by
          simp [runCascade, h, hr]
        rw [hrw] at hi2 ⊢
        simp at hi2
        have hic : i = calls := by omega
        subst hic
        exact ⟨rfl, rfl⟩

-- ────────────────────────────────────────────────────────────────────
-- §11  Signal ordering lemmas
-- ────────────────────────────────────────────────────────────────────

/-- The final-sort comparator is asymmetric. -/
theorem signalLt_asym (a b : AnomalySignal) (h : signalLt a b = true) :
    signalLt b a = false := by
  apply Bool.eq_false_iff.mpr
  intro hcon
  simp only [signalLt, Bool.or_eq_true, Bool.and_eq_true, decide_eq_true_eq] at h hcon
  rcases h with h1 | ⟨h2, h3⟩ <;> rcases hcon with c1 | ⟨c2, c3⟩ <;> try omega
  linarith

/-- The complement of the final-sort comparator is transitive. -/
theorem signalLt_trans (a b c : AnomalySignal) (hba : signalLt b a = false)
    (hcb : signalLt c b = false) : signalLt c a = false := by
  have hba' : ¬ (sigOrder a.severity < sigOrder b.severity ∨
      (sigOrder a.severity = sigOrder b.severity ∧ a.zscore < b.zscore)) := by
    intro hx
    rw [Bool.eq_false_iff] at hba
    exact hba (by
      simp only [signalLt, Bool.or_eq_true, Bool.and_eq_true, decide_eq_true_eq]
      exact hx)
  have hcb' : ¬ (sigOrder b.severity < sigOrder c.severity ∨
      (sigOrder b.severity = sigOrder c.severity ∧ b.zscore < c.zscore)) := by
    intro hx
    rw [Bool.eq_false_iff] at hcb
    exact hcb (by
      simp only [signalLt, Bool.or_eq_true, Bool.and_eq_true, decide_eq_true_eq]
      exact hx)
  push_neg at hba' hcb'
  obtain ⟨hab, habz⟩ := hba'
  obtain ⟨hbc, hbcz⟩ := hcb'
  apply Bool.eq_false_iff.mpr
  intro hcon
  simp only [signalLt, Bool.or_eq_true, Bool.and_eq_true, decide_eq_true_eq] at hcon
  rcases hcon with h1 | ⟨h2, h3⟩
  · omega
  · have e1 : sigOrder a.severity = sigOrder b.severity := by omega
    have e2 : sigOrder b.severity = sigOrder c.severity := by omega
    have z1 := habz e1
    have z2 := hbcz e2
    linarith

/-- The reported signal list is ordered by tier rank descending, ties by the
stored one-decimal z-score descending. -/
theorem detectAnomalies_sorted_rounded (events : List VigilEvent) :
    (detectAnomalies events).Pairwise
      (fun a b => sigOrder b.severity < sigOrder a.severity ∨
        (sigOrder b.severity = sigOrder a.severity ∧ b.zscore ≤ a.zscore)) := by
  rw [detectAnomalies]
  by_cases h0 : events.length = 0
  · simp [h0]
  · rw [if_neg h0]
    refine (sortStable_pairwise signalLt signalLt_asym signalLt_trans _).imp ?_
    intro a b h
    have h' : ¬ (sigOrder a.severity < sigOrder b.severity ∨
        (sigOrder a.severity = sigOrder b.severity ∧ a.zscore < b.zscore)) := by
      intro hx
      rw [Bool.eq_false_iff] at h
      exact h (by
        simp only [signalLt, Bool.or_eq_true, Bool.and_eq_true, decide_eq_true_eq]
        exact hx)
    push_neg at h'
    obtain ⟨hle, himp⟩ := h'
    by_cases he : sigOrder b.severity = sigOrder a.severity
    · exact Or.inr ⟨he, himp he.symm⟩
    · exact Or.inl (by omega)

-- ────────────────────────────────────────────────────────────────────
-- §12  Concrete evaluations
-- ────────────────────────────────────────────────────────────────────

/-- Cell of `eA1`. -/
theorem eventCellKey_eA1 : eventCellKey eA1 = some (20, 30) := by
  simp only [eA1, mkEvent, eventCellKey, truthyNum, cellKey, CELL_SIZE]
  norm_num

/-- Cell of `eA2`. -/
theorem eventCellKey_eA2 : eventCellKey eA2 = some (20, 50) := by
  simp only [eA2, mkEvent, eventCellKey, truthyNum, cellKey, CELL_SIZE]
  norm_num

/-- Cell of `eA3`. -/
theorem eventCellKey_eA3 : eventCellKey eA3 = some (40, 30) := by
  simp only [eA3, mkEvent, eventCellKey, truthyNum, cellKey, CELL_SIZE]
  norm_num

/-- Cell of `eA4`. -/
theorem eventCellKey_eA4 : eventCellKey eA4 = some (40, 50) := by
  simp only [eA4, mkEvent, eventCellKey, truthyNum, cellKey, CELL_SIZE]
  norm_num

/-- The grouping of the disaster snapshot. -/
theorem groupEvents_evA : groupEvents evA = [(Domain.disaster, cellsA)] := by
  simp only [cellsA, evA, groupEvents, List.foldl_append, List.replicate, List.foldl_cons,
    List.foldl_nil, eventCellKey_eA1, eventCellKey_eA2, eventCellKey_eA3, eventCellKey_eA4,
    addToDomain, addToCell]
  norm_num [eA1, eA2, eA3, eA4, mkEvent, addToDomain, addToCell]

/-- Welford fold over the disaster snapshot's cell counts [9, 3, 3, 1]. -/
theorem welfordFold_cellsA :
    cellsA.foldl (fun st kl => welfordUpdate st (kl.2.length : ℚ)) ⟨0, 0, 0⟩ = ⟨4, 4, 36⟩ := by
  simp only [cellsA, List.foldl_cons, List.foldl_nil, welfordUpdate, List.length_replicate,
    List.length_cons, List.length_nil, WelfordState.mk.injEq]
  norm_num

/-- Population statistics of [9, 3, 3, 1]: mean 4, stddev 3. -/
theorem finalize_A : welfordFinalize ⟨4, 4, 36⟩ = (4, 3) := by
  rw [welfordFinalize, if_neg (by norm_num)]
  rw [Prod.mk.injEq]
  refine ⟨rfl, ?_⟩
  have h9 : ((({ n := 4, mean := 4, M2 := 36 } : WelfordState).M2 /
      (({ n := 4, mean := 4, M2 := 36 } : WelfordState).n : ℚ) : ℚ) : ℝ) = (9 : ℝ) := by
    norm_num
  rw [h9, show (9:ℝ) = 3 ^ 2 from by norm_num, Real.sqrt_sq (by norm_num : (0:ℝ) ≤ 3)]

/-- Region label of the hot disaster cell. -/
theorem regionLabel_A1 : regionLabel (List.replicate 9 eA1) 25 35 = ("R1") := by
  rfl

/-- The hot cell of the disaster snapshot produces `sigA`. -/
theorem emitCell_A1 :
    emitCell Domain.disaster 4 3 (20, 30) (List.replicate 9 eA1) = some sigA := by
  have hzval : ((((9:Nat) : ℚ) - 4 : ℚ) : ℝ) / 3 = 5/3 := by
    push_cast
    norm_num
  have hfloor : (⌊(5/3 : ℝ) * 10 + 1/2⌋ : ℤ) = 17 := by
    apply Int.floor_eq_iff.mpr
    constructor <;> norm_num
  simp only [emitCell, mkSignal, List.length_replicate, hzval, MIN_EVENTS_FOR_SIGNAL]
  rw [if_neg (by norm_num)]
  rw [if_neg (by rw [Z_ELEVATED]; norm_num)]
  rw [if_neg (by rw [Z_CRITICAL]; norm_num)]
  rw [if_pos (by rw [Z_SIGNIFICANT]; norm_num)]
  rw [hfloor]
  rw [show cellCentre (20, 30) = ((25 : ℚ), (35 : ℚ)) from by
    simp only [cellCentre, CELL_SIZE]; norm_num]
  rw [regionLabel_A1]
  simp only [sigA, AnomalySignal.mk.injEq]
  norm_num
  exact ⟨rfl, rfl⟩

/-- Cell (20,50) of the disaster snapshot is below the z threshold. -/
theorem emitCell_A2 :
    emitCell Domain.disaster 4 3 (20, 50) (List.replicate 3 eA2) = none := by
  have hzval : ((((3:Nat) : ℚ) - 4 : ℚ) : ℝ) / 3 = -(1/3) := by
    push_cast
    norm_num
  simp only [emitCell, List.length_replicate, hzval, MIN_EVENTS_FOR_SIGNAL]
  rw [if_neg (by norm_num)]
  rw [if_pos (by rw [Z_ELEVATED]; norm_num)]

/-- Cell (40,30) of the disaster snapshot is below the z threshold. -/
theorem emitCell_A3 :
    emitCell Domain.disaster 4 3 (40, 30) (List.replicate 3 eA3) = none := by
  have hzval : ((((3:Nat) : ℚ) - 4 : ℚ) : ℝ) / 3 = -(1/3) := by
    push_cast
    norm_num
  simp only [emitCell, List.length_replicate, hzval, MIN_EVENTS_FOR_SIGNAL]
  rw [if_neg (by norm_num)]
  rw [if_pos (by rw [Z_ELEVATED]; norm_num)]

/-- Cell (40,50) of the disaster snapshot has too few events. -/
theorem emitCell_A4 :
    emitCell Domain.disaster 4 3 (40, 50) [eA4] = none := by
  simp only [emitCell, List.length_singleton, MIN_EVENTS_FOR_SIGNAL]
  rw [if_pos (by norm_num)]

/-- The disaster domain of `evA` reports exactly `sigA`. -/
theorem processDomain_A : processDomain Domain.disaster cellsA = [sigA] := by
  simp only [processDomain, welfordFold_cellsA, finalize_A]
  rw [if_neg (by rw [cellsA]; norm_num)]
  rw [if_neg (by norm_num)]
  simp only [cellsA, List.filterMap_cons, List.filterMap_nil,
    emitCell_A1, emitCell_A2, emitCell_A3, emitCell_A4]

/-- The detector output on the disaster snapshot. -/
theorem detect_evA : detectAnomalies evA = [sigA] := by
  rw [detectAnomalies, if_neg (by rw [evA]; simp), groupEvents_evA]
  simp only [List.map_cons, List.map_nil, List.flatten, processDomain_A]
  rfl

/-- Cell of `eB1`. -/
theorem eventCellKey_eB1 : eventCellKey eB1 = some (20, 30) := by
  simp only [eB1, mkEvent, eventCellKey, truthyNum, cellKey, CELL_SIZE]
  norm_num

/-- Cell of `eB2`. -/
theorem eventCellKey_eB2 : eventCellKey eB2 = some (20, 50) := by
  simp only [eB2, mkEvent, eventCellKey, truthyNum, cellKey, CELL_SIZE]
  norm_num

/-- Cell of `eB3`. -/
theorem eventCellKey_eB3 : eventCellKey eB3 = some (40, 30) := by
  simp only [eB3, mkEvent, eventCellKey, truthyNum, cellKey, CELL_SIZE]
  norm_num

/-- Cell of `eB4`. -/
theorem eventCellKey_eB4 : eventCellKey eB4 = some (40, 50) := by
  simp only [eB4, mkEvent, eventCellKey, truthyNum, cellKey, CELL_SIZE]
  norm_num

/-- The grouping of the two-domain snapshot. -/
theorem groupEvents_evAB :
    groupEvents evAB = [(Domain.disaster, cellsA), (Domain.conflict, cellsB)] := by
  simp only [cellsA, cellsB, evAB, evA, evB, groupEvents, List.foldl_append, List.replicate,
    List.foldl_cons, List.foldl_nil, eventCellKey_eA1, eventCellKey_eA2, eventCellKey_eA3,
    eventCellKey_eA4, eventCellKey_eB1, eventCellKey_eB2, eventCellKey_eB3, eventCellKey_eB4,
    addToDomain, addToCell]
  norm_num [eA1, eA2, eA3, eA4, eB1, eB2, eB3, eB4, mkEvent, addToDomain, addToCell]
  all_goals decide

/-- Welford fold over the conflict snapshot's cell counts [27, 3, 1, 1]. -/
theorem welfordFold_cellsB :
    cellsB.foldl (fun st kl => welfordUpdate st (kl.2.length : ℚ)) ⟨0, 0, 0⟩ = ⟨4, 8, 484⟩ := by
  simp only [cellsB, List.foldl_cons, List.foldl_nil, welfordUpdate, List.length_replicate,
    List.length_cons, List.length_nil, WelfordState.mk.injEq]
  norm_num

/-- Population statistics of [27, 3, 1, 1]: mean 8, stddev 11. -/
theorem finalize_B : welfordFinalize ⟨4, 8, 484⟩ = (8, 11) := by
  rw [welfordFinalize, if_neg (by norm_num)]
  rw [Prod.mk.injEq]
  refine ⟨rfl, ?_⟩
  have h121 : ((({ n := 4, mean := 8, M2 := 484 } : WelfordState).M2 /
      (({ n := 4, mean := 8, M2 := 484 } : WelfordState).n : ℚ) : ℚ) : ℝ) = (121 : ℝ) := by
    norm_num
  rw [h121, show (121:ℝ) = 11 ^ 2 from by norm_num,
    Real.sqrt_sq (by norm_num : (0:ℝ) ≤ 11)]

/-- Region label of the hot conflict cell. -/
theorem regionLabel_B1 : regionLabel (List.replicate 27 eB1) 25 35 = ("R2") := by
  rfl

/-- The hot cell of the conflict snapshot produces `sigB`. -/
theorem emitCell_B1 :
    emitCell Domain.conflict 8 11 (20, 30) (List.replicate 27 eB1) = some sigB := by
  have hzval : ((((27:Nat) : ℚ) - 8 : ℚ) : ℝ) / 11 = 19/11 := by
    push_cast
    norm_num
  have hfloor : (⌊(19/11 : ℝ) * 10 + 1/2⌋ : ℤ) = 17 := by
    apply Int.floor_eq_iff.mpr
    constructor <;> norm_num
  simp only [emitCell, mkSignal, List.length_replicate, hzval, MIN_EVENTS_FOR_SIGNAL]
  rw [if_neg (by norm_num)]
  rw [if_neg (by rw [Z_ELEVATED]; norm_num)]
  rw [if_neg (by rw [Z_CRITICAL]; norm_num)]
  rw [if_pos (by rw [Z_SIGNIFICANT]; norm_num)]
  rw [hfloor]
  rw [show cellCentre (20, 30) = ((25 : ℚ), (35 : ℚ)) from by
    simp only [cellCentre, CELL_SIZE]; norm_num]
  rw [regionLabel_B1]
  simp only [sigB, AnomalySignal.mk.injEq]
  norm_num
  exact ⟨rfl, rfl⟩

/-- Cell (20,50) of the conflict snapshot is below the z threshold. -/
theorem emitCell_B2 :
    emitCell Domain.conflict 8 11 (20, 50) (List.replicate 3 eB2) = none := by
  have hzval : ((((3:Nat) : ℚ) - 8 : ℚ) : ℝ) / 11 = -(5/11) := by
    push_cast
    norm_num
  simp only [emitCell, List.length_replicate, hzval, MIN_EVENTS_FOR_SIGNAL]
  rw [if_neg (by norm_num)]
  rw [if_pos (by rw [Z_ELEVATED]; norm_num)]

/-- Cell (40,30) of the conflict snapshot has too few events. -/
theorem emitCell_B3 :
    emitCell Domain.conflict 8 11 (40, 30) [eB3] = none := by
  simp only [emitCell, List.length_singleton, MIN_EVENTS_FOR_SIGNAL]
  rw [if_pos (by norm_num)]

/-- Cell (40,50) of the conflict snapshot has too few events. -/
theorem emitCell_B4 :
    emitCell Domain.conflict 8 11 (40, 50) [eB4] = none := by
  simp only [emitCell, List.length_singleton, MIN_EVENTS_FOR_SIGNAL]
  rw [if_pos (by norm_num)]

/-- The conflict domain of `evB` reports exactly `sigB`. -/
theorem processDomain_B : processDomain Domain.conflict cellsB = [sigB] := by
  simp only [processDomain, welfordFold_cellsB, finalize_B]
  rw [if_neg (by rw [cellsB]; norm_num)]
  rw [if_neg (by norm_num)]
  simp only [cellsB, List.filterMap_cons, List.filterMap_nil,
    emitCell_B1, emitCell_B2, emitCell_B3, emitCell_B4]

/-- The detector output on the two-domain snapshot: `sigA` (raw z 5/3) is
listed before `sigB` (raw z 19/11) because their rounded z-scores tie. -/
theorem detect_evAB : detectAnomalies evAB = [sigA, sigB] := by
  rw [detectAnomalies, if_neg (by rw [evAB, evA, evB]; simp), groupEvents_evAB]
  simp only [List.map_cons, List.map_nil, List.flatten, processDomain_A, processDomain_B]
  norm_num [sortStable, insertS, signalLt, sigA, sigB, sigOrder]

/-- Cells handed to the detector for the disaster domain of `evA`. -/
theorem domainCells_evA : domainCells evA Domain.disaster = cellsA := by
  rw [domainCells, groupEvents_evA]
  rfl

/-- The detector statistics for the disaster domain of `evA`. -/
theorem domainStats_evA : domainStats evA Domain.disaster = (4, 3) := by
  rw [domainStats, domainCells_evA, welfordFold_cellsA, finalize_A]

/-- Cells handed to the detector for the disaster domain of `evAB`. -/
theorem domainCells_evAB_disaster : domainCells evAB Domain.disaster = cellsA := by
  rw [domainCells, groupEvents_evAB]
  rfl

/-- Cells handed to the detector for the conflict domain of `evAB`. -/
theorem domainCells_evAB_conflict : domainCells evAB Domain.conflict = cellsB := by
  rw [domainCells, groupEvents_evAB]
  rfl

/-- The detector statistics for the disaster domain of `evAB`. -/
theorem domainStats_evAB_disaster : domainStats evAB Domain.disaster = (4, 3) := by
  rw [domainStats, domainCells_evAB_disaster, welfordFold_cellsA, finalize_A]

/-- The detector statistics for the conflict domain of `evAB`. -/
theorem domainStats_evAB_conflict : domainStats evAB Domain.conflict = (8, 11) := by
  rw [domainStats, domainCells_evAB_conflict, welfordFold_cellsB, finalize_B]

/-- The unrounded z-score of `sigA` in `evA`. -/
theorem rawZ_evA_sigA : rawZ evA sigA = 5/3 := by
  rw [rawZ, show sigA.domain = Domain.disaster from rfl, domainStats_evA]
  rw [show sigA.count = 9 from rfl]
  push_cast
  norm_num

/-- The unrounded z-score of `sigA` in `evAB`. -/
theorem rawZ_evAB_sigA : rawZ evAB sigA = 5/3 := by
  rw [rawZ, show sigA.domain = Domain.disaster from rfl, domainStats_evAB_disaster]
  rw [show sigA.count = 9 from rfl]
  push_cast
  norm_num

/-- The unrounded z-score of `sigB` in `evAB`. -/
theorem rawZ_evAB_sigB : rawZ evAB sigB = 19/11 := by
  rw [rawZ, show sigB.domain = Domain.conflict from rfl, domainStats_evAB_conflict]
  rw [show sigB.count = 27 from rfl]
  push_cast
  norm_num

/-- The equator event fails the falsy coordinate guard despite carrying valid
coordinates. -/
theorem eventCellKey_evEquator : eventCellKey evEquator = none := by
  norm_num [eventCellKey, truthyNum, evEquator, mkEvent]

/-- The equator event contributes to no cell. -/
theorem groupEvents_equator : groupEvents [evEquator] = [] := by
  simp [groupEvents, eventCellKey_evEquator]

/-- Cell of the co-located health events. -/
theorem eventCellKey_evC7 :
    eventCellKey (mkEvent Domain.health Severity.low 5 5 ("H1") ("R3")) = some (0, 0) := by
  simp only [mkEvent, eventCellKey, truthyNum, cellKey, CELL_SIZE]
  norm_num

/-- The grouping of the single-cell health snapshot. -/
theorem groupEvents_evC7 : groupEvents evC7 =
    [(Domain.health, [((0, 0), evC7)])] := by
  simp only [evC7, groupEvents, List.replicate, List.foldl_cons, List.foldl_nil,
    eventCellKey_evC7, addToDomain, addToCell]
  norm_num [addToDomain, addToCell, mkEvent]

/-- The health domain of `evC7` has a single populated cell. -/
theorem domainCells_evC7 : domainCells evC7 Domain.health = [((0, 0), evC7)] := by
  rw [domainCells, groupEvents_evC7]
  rfl

/-- The local summary of the three-event snapshot. -/
theorem localSummary_evC6 : localSummary evC6 =
    ("3 active events across 2 climate, 1 conflict. Most significant: G2 (L2); G3 (L3).") := by
  rfl

/-- The cascade with an immediately successful provider. -/
theorem run_oracleOk : generateBriefRun [] ("Global") (some ("k")) oracleOk =
    (⟨("All quiet."), BriefSource.ai⟩, 1) := by
  rfl

/-- The cascade with an authentication failure on the first attempt. -/
theorem run_oracleAuth : generateBriefRun [] ("Global") (some ("k")) oracleAuth =
    (⟨("No active events to summarise."), BriefSource.loc⟩, 1) := by
  rfl

/-- The cascade when every provider is rate-limited. -/
theorem run_oracleBusy : generateBriefRun [] ("Global") (some ("k")) oracleBusy =
    (⟨("No active events to summarise."), BriefSource.loc⟩, 5) := by
  rfl

-- ────────────────────────────────────────────────────────────────────
-- §12b  Welford correctness
-- ────────────────────────────────────────────────────────────────────

/-- Shifting the centre of a sum of squared deviations. -/
theorem sum_sq_shift (l : List ℚ) (a b : ℚ) :
    (l.map fun x => (x - b) ^ 2).sum =
      (l.map fun x => (x - a) ^ 2).sum + 2 * (a - b) * l.sum +
        (l.length : ℚ) * (b ^ 2 - a ^ 2) := by
  induction l with
  | nil => simp
  | cons x xs ih =>
    simp only [List.map_cons, List.sum_cons, List.length_cons, ih]
    push_cast
    ring

/-- Welford's recurrence is correct: after folding a list of values it holds
the sample count, the exact population mean, and the exact sum of squared
deviations from that mean. -/
theorem welford_fold_stats (l : List ℚ) :
    (l.foldl welfordUpdate ⟨0, 0, 0⟩).n = l.length ∧
    (l.foldl welfordUpdate ⟨0, 0, 0⟩).mean = l.sum / (l.length : ℚ) ∧
    (l.foldl welfordUpdate ⟨0, 0, 0⟩).M2 =
      (l.map fun x => (x - l.sum / (l.length : ℚ)) ^ 2).sum := by
  induction l using List.reverseRecOn with
  | nil => simp
  | append_singleton l v ih =>
    obtain ⟨hn, hmean, hM2⟩ := ih
    rw [List.foldl_append, List.foldl_cons, List.foldl_nil]
    by_cases hl : l = []
    · subst hl
      simp [welfordUpdate]
    · have hn0 : (l.length : ℚ) ≠ 0 := by
        intro h
        exact hl (List.length_eq_zero.mp (by exact_mod_cast h))
    -- abbreviations
      have hn1 : ((l.length : ℚ) + 1) ≠ 0 := by positivity
      have hmean' : (welfordUpdate (l.foldl welfordUpdate ⟨0, 0, 0⟩) v).mean =
          (l.sum + v) / ((l.length : ℚ) + 1) := by
        rw [welfordUpdate]
        simp only [hn, hmean]
        push_cast
        field_simp
        ring
      refine ⟨?_, ?_, ?_⟩
      · rw [welfordUpdate]
        simp [hn]
      · rw [hmean']
        simp only [List.sum_append, List.length_append, List.sum_cons, List.sum_nil,
          List.length_cons, List.length_nil]
        push_cast
        ring_nf
      · have hgoalmean : (l ++ [v]).sum / ((l ++ [v]).length : ℚ) =
            (l.sum + v) / ((l.length : ℚ) + 1) := by
          simp only [List.sum_append, List.length_append, List.sum_cons, List.sum_nil,
            List.length_cons, List.length_nil]
          push_cast
          ring_nf
        rw [welfordUpdate]
        simp only [hn, hmean, hM2, hmean']
        rw [List.map_append, List.sum_append, hgoalmean]
        simp only [List.map_cons, List.map_nil, List.sum_cons, List.sum_nil]
        rw [sum_sq_shift l (l.sum / (l.length : ℚ)) ((l.sum + v) / ((l.length : ℚ) + 1))]
        field_simp
        ring

/-- For a domain with at least two populated cells, the detector's statistics
are the exact population mean and population standard deviation of the
per-cell event counts. -/
theorem domainStats_population (events : List VigilEvent) (d : Domain)
    (h2 : 2 ≤ (domainCells events d).length) :
    (domainStats events d).1 =
      (cellCounts events d).sum / ((cellCounts events d).length : ℚ) ∧
    (domainStats events d).2 = Real.sqrt
      ((((cellCounts events d).map fun x =>
          (x - (cellCounts events d).sum / ((cellCounts events d).length : ℚ)) ^ 2).sum /
        ((cellCounts events d).length : ℚ) : ℚ)) := by
  have hfold : (domainCells events d).foldl
      (fun st kl => welfordUpdate st (kl.2.length : ℚ)) ⟨0, 0, 0⟩ =
      (cellCounts events d).foldl welfordUpdate ⟨0, 0, 0⟩ := by
    rw [cellCounts, List.foldl_map]
  obtain ⟨hn, hmean, hM2⟩ := welford_fold_stats (cellCounts events d)
  have hlen : (cellCounts events d).length = (domainCells events d).length := by
    rw [cellCounts, List.length_map]
  have hnot : ¬ ((cellCounts events d).foldl welfordUpdate ⟨0, 0, 0⟩).n < 2 := by
    rw [hn]
    omega
  rw [domainStats, hfold, welfordFinalize, if_neg hnot]
  exact ⟨hmean, by rw [hM2, hmean, hn]⟩

-- ────────────────────────────────────────────────────────────────────
-- §13  Claim theorems
-- ────────────────────────────────────────────────────────────────────

/-- C1 counterexample: the claim as stated is false on the snapshot `evA`
(per-cell counts [9, 3, 3, 1]): the single reported signal stores the rounded
z-score 1.7, which is not equal to (count − mean) / stddev = (9 − 4) / 3 = 5/3. -/
theorem C1_counterexample_rounded_zscore :
    detectAnomalies evA = [sigA] ∧ ((sigA.zscore : ℝ) ≠ rawZ evA sigA) := by
  refine ⟨detect_evA, ?_⟩
  rw [rawZ_evA_sigA, show sigA.zscore = (17/10 : ℚ) from rfl]
  push_cast
  norm_num

/-- C1 (amended): for every reported signal, the Welford fold over the
domain's per-cell counts yields the exact population mean and population
standard deviation of those counts, the stored z-score equals
(count − mean) / stddev rounded to one decimal (`Math.round(z·10)/10`), and
the severity tier is classified from the unrounded z: critical when z ≥ 2.5,
significant when 1.5 ≤ z < 2.5, elevated when 1.0 ≤ z < 1.5. -/
theorem C1_welford_zscore_severity (events : List VigilEvent) (s : AnomalySignal)
    (hs : s ∈ detectAnomalies events) :
    (domainStats events s.domain).1 =
      (cellCounts events s.domain).sum / ((cellCounts events s.domain).length : ℚ) ∧
    (domainStats events s.domain).2 = Real.sqrt
      ((((cellCounts events s.domain).map fun x =>
          (x - (cellCounts events s.domain).sum /
            ((cellCounts events s.domain).length : ℚ)) ^ 2).sum /
        ((cellCounts events s.domain).length : ℚ) : ℚ)) ∧
    s.zscore = ((⌊rawZ events s * 10 + 1/2⌋ : ℤ) : ℚ) / 10 ∧
    s.severity = (if Z_CRITICAL ≤ rawZ events s then SigSeverity.critical
      else if Z_SIGNIFICANT ≤ rawZ events s then SigSeverity.significant
      else SigSeverity.elevated) := by
  obtain ⟨k, l, hmem, hwf, h2, hstd, hmin, hz, hsig⟩ := detect_master events s hs
  obtain ⟨hpm, hps⟩ := domainStats_population events s.domain h2
  have hcount : s.count = l.length := by rw [hsig]; rfl
  have hraw : rawZ events s =
      (((l.length : ℚ) - (domainStats events s.domain).1 : ℚ) : ℝ) /
        (domainStats events s.domain).2 := by
    rw [rawZ, hcount]
  refine ⟨hpm, hps, ?_, ?_⟩
  · rw [hraw]
    conv_lhs => rw [hsig]
    rfl
  · rw [hraw]
    conv_lhs => rw [hsig]
    rfl

/-- C1 witness: on `evA`, the reported signal `sigA` satisfies the amended
claim at z = 5/3 (stored z-score 1.7, tier significant). -/
theorem C1_witness :
    sigA ∈ detectAnomalies evA ∧
    (domainStats evA sigA.domain).1 =
      (cellCounts evA sigA.domain).sum / ((cellCounts evA sigA.domain).length : ℚ) ∧
    (domainStats evA sigA.domain).2 = Real.sqrt
      ((((cellCounts evA sigA.domain).map fun x =>
          (x - (cellCounts evA sigA.domain).sum /
            ((cellCounts evA sigA.domain).length : ℚ)) ^ 2).sum /
        ((cellCounts evA sigA.domain).length : ℚ) : ℚ)) ∧
    sigA.zscore = ((⌊rawZ evA sigA * 10 + 1/2⌋ : ℤ) : ℚ) / 10 ∧
    sigA.severity = (if Z_CRITICAL ≤ rawZ evA sigA then SigSeverity.critical
      else if Z_SIGNIFICANT ≤ rawZ evA sigA then SigSeverity.significant
      else SigSeverity.elevated) := by
  have hmem : sigA ∈ detectAnomalies evA := by
    rw [detect_evA]
    exact List.mem_singleton.mpr rfl
  exact ⟨hmem, C1_welford_zscore_severity evA sigA hmem⟩

/-- C7: a domain with fewer than two populated cells, or with population
standard deviation of its per-cell counts below 0.5 (in particular any
domain with identical per-cell counts, whose variance is zero), contributes
no signal to the detector output. -/
theorem C7_degenerate_domain_skipped (events : List VigilEvent) (d : Domain)
    (h : (domainCells events d).length < 2 ∨ (domainStats events d).2 < (0.5 : ℝ)) :
    (detectAnomalies events).filter (fun s => decide (s.domain = d)) = [] := by
  rw [List.filter_eq_nil_iff]
  intro s hs
  simp only [decide_eq_true_eq]
  intro hd
  obtain ⟨k, l, hmem, hwf, h2, hstd, hmin, hz, hsig⟩ := detect_master events s hs
  rcases h with h | h
  · rw [hd] at h2
    omega
  · rw [hd] at hstd
    exact hstd h

/-- C7 witness: three co-located health events populate a single cell, so the
health domain is skipped entirely. -/
theorem C7_witness :
    (domainCells evC7 Domain.health).length < 2 ∧
    (detectAnomalies evC7).filter (fun s => decide (s.domain = Domain.health)) = [] := by
  have hlen : (domainCells evC7 Domain.health).length < 2 := by
    rw [domainCells_evC7]
    norm_num
  exact ⟨hlen, C7_degenerate_domain_skipped evC7 Domain.health (Or.inl hlen)⟩

/-- C8: every reported signal has at least `MIN_EVENTS_FOR_SIGNAL` = 3
contributing events — a cell with fewer events is never reported however
extreme its count — and its unrounded z-score is at least `Z_ELEVATED` = 1.0. -/
theorem C8_min_events_and_z_floor (events : List VigilEvent) (s : AnomalySignal)
    (hs : s ∈ detectAnomalies events) :
    MIN_EVENTS_FOR_SIGNAL ≤ s.count ∧ Z_ELEVATED ≤ rawZ events s := by
  obtain ⟨k, l, hmem, hwf, h2, hstd, hmin, hz, hsig⟩ := detect_master events s hs
  have hcount : s.count = l.length := by rw [hsig]; rfl
  constructor
  · rw [hcount]
    exact hmin
  · have hr : rawZ events s =
        (((l.length : ℚ) - (domainStats events s.domain).1 : ℚ) : ℝ) /
          (domainStats events s.domain).2 := by
      rw [rawZ, hcount]
    rw [hr]
    exact not_lt.mp hz

/-- C8 witness: the reported disaster signal of `evA` has 9 ≥ 3 events and
raw z-score 5/3 ≥ 1. -/
theorem C8_witness :
    MIN_EVENTS_FOR_SIGNAL ≤ sigA.count ∧ Z_ELEVATED ≤ rawZ evA sigA := by
  have hmem : sigA ∈ detectAnomalies evA := by
    rw [detect_evA]
    exact List.mem_singleton.mpr rfl
  exact C8_min_events_and_z_floor evA sigA hmem

/-- C10: for every reported signal, the count equals the length of its events
list; the id is the domain and the cell key joined by `:`; the stored lat/lng
are the centre of that cell (corner plus 5° on each axis, recovered by
`signalCell`); and every event in the list belongs to the signal's domain and
falls in that exact cell. -/
theorem C10_signal_invariants (events : List VigilEvent) (s : AnomalySignal)
    (hs : s ∈ detectAnomalies events) :
    s.count = s.events.length ∧
    s.id = domainToString s.domain ++ (":") ++ cellKeyString (signalCell s) ∧
    cellCentre (signalCell s) = (s.lat, s.lng) ∧
    s.events.all (fun e => decide (e.domain = s.domain) &&
      decide (eventCellKey e = some (signalCell s))) = true := by
  obtain ⟨k, l, hmem, hwf, h2, hstd, hmin, hz, hsig⟩ := detect_master events s hs
  have hlat : s.lat = (k.1 : ℚ) + 5 := by
    rw [hsig]
    show (cellCentre k).1 = _
    rw [cellCentre]
    norm_num [CELL_SIZE]
  have hlng : s.lng = (k.2 : ℚ) + 5 := by
    rw [hsig]
    show (cellCentre k).2 = _
    rw [cellCentre]
    norm_num [CELL_SIZE]
  have hcell : signalCell s = k := by
    rw [signalCell, hlat, hlng]
    have h1 : (⌊(k.1 : ℚ) + 5⌋ : ℤ) = k.1 + 5 := by
      rw [show ((k.1 : ℚ) + 5) = ((k.1 + 5 : ℤ) : ℚ) from by push_cast; ring,
        Int.floor_intCast]
    have h2' : (⌊(k.2 : ℚ) + 5⌋ : ℤ) = k.2 + 5 := by
      rw [show ((k.2 : ℚ) + 5) = ((k.2 + 5 : ℤ) : ℚ) from by push_cast; ring,
        Int.floor_intCast]
    rw [h1, h2']
    rw [Prod.mk.injEq]
    omega
  refine ⟨?_, ?_, ?_, ?_⟩
  · rw [hsig]
    rfl
  · rw [hcell]
    conv_lhs => rw [hsig]
    rfl
  · rw [hcell, Prod.mk.injEq, cellCentre]
    norm_num [CELL_SIZE]
    exact ⟨hlat.symm, hlng.symm⟩
  · rw [hcell, show s.events = l from by rw [hsig]; rfl, List.all_eq_true]
    intro e he
    have hw := hwf e he
    simp only [Bool.and_eq_true, decide_eq_true_eq]
    exact hw

/-- C10 witness: the invariants instantiated on the reported disaster signal
of `evA` (cell (20,30), centre (25,35), nine events). -/
theorem C10_witness :
    sigA.count = sigA.events.length ∧
    sigA.id = domainToString sigA.domain ++ (":") ++ cellKeyString (signalCell sigA) ∧
    cellCentre (signalCell sigA) = (sigA.lat, sigA.lng) ∧
    sigA.events.all (fun e => decide (e.domain = sigA.domain) &&
      decide (eventCellKey e = some (signalCell sigA))) = true := by
  have hmem : sigA ∈ detectAnomalies evA := by
    rw [detect_evA]
    exact List.mem_singleton.mpr rfl
  exact C10_signal_invariants evA sigA hmem

/-- C5 counterexample: the claim as stated (sorted by tier rank descending,
then by raw z-score descending) is false on `evAB`: both signals are tier
significant and both store rounded z-score 1.7, so the stable sort keeps the
emission order [sigA, sigB] even though their raw z-scores are ascending
(5/3 < 19/11). -/
theorem C5_counterexample_raw_order :
    ¬ (detectAnomalies evAB).Pairwise (fun a b =>
        sigOrder b.severity < sigOrder a.severity ∨
        (sigOrder b.severity = sigOrder a.severity ∧ rawZ evAB b ≤ rawZ evAB a)) := by
  rw [detect_evAB]
  intro h
  have h1 := (List.pairwise_cons.mp h).1 sigB (List.mem_singleton.mpr rfl)
  rcases h1 with h1 | ⟨h2, h3⟩
  · simp [sigA, sigB, sigOrder] at h1
  · rw [rawZ_evAB_sigA, rawZ_evAB_sigB] at h3
    norm_num at h3

/-- C5 (amended): the signal list returned by `detectAnomalies` is sorted by
severity tier rank (critical = 2, significant = 1, elevated = 0) descending,
then by the stored one-decimal-rounded z-score descending (the comparator
reads the signal's `zscore` field, not the unrounded value). -/
theorem C5_sorted_by_tier_then_stored_z (events : List VigilEvent) :
    (detectAnomalies events).Pairwise
      (fun a b => sigOrder b.severity < sigOrder a.severity ∨
        (sigOrder b.severity = sigOrder a.severity ∧ b.zscore ≤ a.zscore)) :=
  detectAnomalies_sorted_rounded events

/-- C4: an event lying exactly on the equator — latitude 0 present and valid,
longitude 50 present and valid — is dropped from the spatial aggregation,
because the guard `!ev.location?.lat` treats the number 0 as absent.  Under
the claim (and the schema invariant) only events missing a coordinate may be
excluded, so this input exhibits the divergence. -/
theorem C4_equator_event_dropped :
    evEquator.location.lat = some 0 ∧
    evEquator.location.lng = some 50 ∧
    (-90 : ℚ) ≤ 0 ∧ (0 : ℚ) ≤ 90 ∧ (-180 : ℚ) ≤ 50 ∧ (50 : ℚ) ≤ 180 ∧
    eventCellKey evEquator = none ∧
    groupEvents [evEquator] = [] := by
  refine ⟨rfl, rfl, by norm_num, by norm_num, by norm_num, by norm_num,
    eventCellKey_evEquator, groupEvents_equator⟩

/-- With a usable credential the cascade is entered with the five-model list
and a fresh request counter. -/
theorem generateBriefRun_usable (events : List VigilEvent) (context : String)
    (apiKey : Option String) (responses : Nat → ProviderResponse)
    (hkey : usableKey apiKey = true) :
    generateBriefRun events context apiKey responses =
      runCascade events (briefMessages events context) ((apiKey).getD (""))
        responses MODEL_CASCADE 0 := by
  rw [generateBriefRun, if_neg (by simp [hkey])]

/-- C2: with a usable credential, `generateBrief` always returns (it is a
total function of the response sequence): its provenance is `ai` exactly when
some attempted request (an index below the number of requests made) classifies
as a success — non-error status, no error payload, non-empty trimmed text —
in which case the returned brief is that model's text and that attempt is the
last request made; otherwise (cascade exhausted or aborted) the brief is the
deterministic local fallback with provenance `local`. -/
theorem C2_cascade_result (events : List VigilEvent) (context : String)
    (apiKey : Option String) (responses : Nat → ProviderResponse)
    (hkey : usableKey apiKey = true) :
    ((generateBrief events context apiKey responses).source = BriefSource.ai ↔
      ((List.range (generateBriefRun events context apiKey responses).2).any fun i =>
        isOkB (tryModel (MODEL_CASCADE.getD i ("")) (briefMessages events context)
          ((apiKey).getD ("")) (responses i))) = true) ∧
    ((generateBrief events context apiKey responses).source = BriefSource.ai →
      tryModel
        (MODEL_CASCADE.getD ((generateBriefRun events context apiKey responses).2 - 1) (""))
        (briefMessages events context) ((apiKey).getD (""))
        (responses ((generateBriefRun events context apiKey responses).2 - 1)) =
        Except.ok (generateBrief events context apiKey responses).brief) ∧
    ((generateBrief events context apiKey responses).source = BriefSource.loc →
      (generateBrief events context apiKey responses).brief = localSummary events) := by
  have hrw := generateBriefRun_usable events context apiKey responses hkey
  rw [generateBrief, hrw]
  rcases runCascade_outcome events (briefMessages events context) ((apiKey).getD (""))
      responses MODEL_CASCADE 0 with ⟨hai, hlt, hok, hall⟩ | ⟨hloc, hall⟩
  · refine ⟨⟨fun _ => ?_, fun _ => hai⟩, fun _ => ?_, fun hcon => ?_⟩
    · rw [List.any_eq_true]
      refine ⟨(runCascade events (briefMessages events context) ((apiKey).getD (""))
          responses MODEL_CASCADE 0).2 - 1, List.mem_range.mpr (by omega), ?_⟩
      show isOkB (tryModel ("") (briefMessages events context) ((apiKey).getD (""))
        (responses ((runCascade events (briefMessages events context) ((apiKey).getD (""))
          responses MODEL_CASCADE 0).2 - 1))) = true
      rw [hok]
      rfl
    · exact hok
    · rw [hai] at hcon
      cases hcon
  · have hsrc : (runCascade events (briefMessages events context) ((apiKey).getD (""))
        responses MODEL_CASCADE 0).1.source = BriefSource.loc := by
      rw [hloc]
    refine ⟨⟨fun hcon => ?_, fun hany => ?_⟩, fun hcon => ?_, fun _ => ?_⟩
    · rw [hsrc] at hcon
      cases hcon
    · exfalso
      rw [List.any_eq_true] at hany
      obtain ⟨i, hi, hok'⟩ := hany
      rw [List.mem_range] at hi
      have hfail := hall i (Nat.zero_le i) hi
      have hok'' : isOkB (tryModel ("") (briefMessages events context) ((apiKey).getD (""))
          (responses i)) = true := hok'
      rw [hfail] at hok''
      cases hok''
    · rw [hsrc] at hcon
      cases hcon
    · rw [hloc]

/-- C2 witness: with key "k" and a provider that immediately succeeds with
text "All quiet.", the cascade returns that text with provenance `ai` after
one request, and the characterization holds at that input. -/
theorem C2_witness :
    usableKey (some ("k")) = true ∧
    generateBriefRun [] ("Global") (some ("k")) oracleOk =
      (⟨("All quiet."), BriefSource.ai⟩, 1) ∧
    ((generateBrief [] ("Global") (some ("k")) oracleOk).source = BriefSource.ai ↔
      ((List.range (generateBriefRun [] ("Global") (some ("k")) oracleOk).2).any fun i =>
        isOkB (tryModel (MODEL_CASCADE.getD i ("")) (briefMessages [] ("Global"))
          (((some ("k"))).getD ("")) (oracleOk i))) = true) ∧
    ((generateBrief [] ("Global") (some ("k")) oracleOk).source = BriefSource.ai →
      tryModel
        (MODEL_CASCADE.getD ((generateBriefRun [] ("Global") (some ("k")) oracleOk).2 - 1) (""))
        (briefMessages [] ("Global")) (((some ("k"))).getD (""))
        (oracleOk ((generateBriefRun [] ("Global") (some ("k")) oracleOk).2 - 1)) =
        Except.ok (generateBrief [] ("Global") (some ("k")) oracleOk).brief) ∧
    ((generateBrief [] ("Global") (some ("k")) oracleOk).source = BriefSource.loc →
      (generateBrief [] ("Global") (some ("k")) oracleOk).brief = localSummary []) := by
  refine ⟨rfl, run_oracleOk, ?_⟩
  exact C2_cascade_result [] ("Global") (some ("k")) oracleOk rfl

/-- C3: if any attempted request of a cascade run (an index below the number
of requests made) returns HTTP 401 or 403, that attempt is the last request
made — no further candidate model is attempted — and the result is the local
fallback with provenance `local`. -/
theorem C3_auth_aborts_cascade (events : List VigilEvent) (context : String)
    (apiKey : Option String) (responses : Nat → ProviderResponse) (i : Nat)
    (hi : i < (generateBriefRun events context apiKey responses).2)
    (hst : (responses i).status = 401 ∨ (responses i).status = 403) :
    (generateBriefRun events context apiKey responses).2 = i + 1 ∧
    generateBrief events context apiKey responses =
      ⟨localSummary events, BriefSource.loc⟩ := by
  by_cases hkey : usableKey apiKey = true
  · have hrw := generateBriefRun_usable events context apiKey responses hkey
    rw [hrw] at hi ⊢
    rw [generateBrief, hrw]
    exact runCascade_auth events (briefMessages events context) ((apiKey).getD (""))
      responses MODEL_CASCADE 0 i (Nat.zero_le i) hi hst
  · exfalso
    have hfalse : usableKey apiKey = false := by
      revert hkey
      cases usableKey apiKey <;> simp
    rw [generateBriefRun, if_pos hfalse] at hi
    simp at hi

/-- C3 witness: a 401 on the very first attempt makes exactly one request and
falls back to the local summary. -/
theorem C3_witness :
    usableKey (some ("k")) = true ∧
    (0 : Nat) < (generateBriefRun [] ("Global") (some ("k")) oracleAuth).2 ∧
    (oracleAuth 0).status = 401 ∧
    (generateBriefRun [] ("Global") (some ("k")) oracleAuth).2 = 0 + 1 ∧
    generateBrief [] ("Global") (some ("k")) oracleAuth =
      ⟨localSummary [], BriefSource.loc⟩ := by
  have hi : (0 : Nat) < (generateBriefRun [] ("Global") (some ("k")) oracleAuth).2 := by
    rw [run_oracleAuth]
    norm_num
  have h := C3_auth_aborts_cascade [] ("Global") (some ("k")) oracleAuth 0 hi
    (Or.inl rfl)
  exact ⟨rfl, hi, rfl, h.1, h.2⟩

/-- C9: when the credential is absent, or empty after trimming whitespace,
`generateBrief` makes zero requests and immediately returns the fixed
"add credential" instruction with provenance `local`. -/
theorem C9_missing_key_short_circuit (events : List VigilEvent) (context : String)
    (apiKey : Option String) (responses : Nat → ProviderResponse)
    (hkey : usableKey apiKey = false) :
    generateBriefRun events context apiKey responses =
      (⟨NO_KEY_MESSAGE, BriefSource.loc⟩, 0) := by
  rw [generateBriefRun, if_pos hkey]

/-- C9 witness: a whitespace-only key short-circuits with zero requests. -/
theorem C9_witness :
    usableKey (some ("  ")) = false ∧
    generateBriefRun [] ("Global") (some ("  ")) oracleOk =
      (⟨NO_KEY_MESSAGE, BriefSource.loc⟩, 0) := by
  exact ⟨rfl, C9_missing_key_short_circuit [] ("Global") (some ("  ")) oracleOk rfl⟩

/-- C6: the local fallback summary returns the literal "no active events"
message for an empty list; otherwise it renders the total count followed by
the per-domain histogram as a comma list whose entries carry the true
per-domain counts (every present domain appearing, all counts positive),
sorted by count descending; and it appends a sentence naming the titles and
location labels of up to 3 critical/high events, all critical events before
any high events, ties keeping input order. -/
theorem C6_local_summary_format (events : List VigilEvent) (h : events ≠ []) :
    localSummary [] = ("No active events to summarise.") ∧
    (sortedHist events).map Prod.snd =
      ((sortedHist events).map fun p => countDom events p.1) ∧
    ((sortedHist events).all fun p => decide (0 < p.2)) = true ∧
    (events.all fun e => (sortedHist events).any fun p => decide (p.1 = e.domain)) = true ∧
    (sortedHist events).Pairwise (fun p q => q.2 ≤ p.2) ∧
    urgentOf events =
      ((events.filter fun e => decide (e.severity = Severity.critical)) ++
        (events.filter fun e => decide (e.severity = Severity.high))).take 3 ∧
    localSummary events = String.intercalate (" ")
      ([toString events.length ++ (" active events across ") ++
          String.intercalate (", ")
            ((sortedHist events).map fun p => toString p.2 ++ (" ") ++ domainToString p.1) ++
          (".")] ++
        (if (urgentOf events).length ≠ 0 then
          [("Most significant: ") ++
            String.intercalate ("; ")
              ((urgentOf events).map fun e => e.title ++ (" (") ++ e.location.label ++ (")")) ++
            (".")]
        else [])) := by
  refine ⟨rfl, ?_, ?_, ?_, sortedHist_sorted events, urgentOf_eq events, ?_⟩
  · apply List.map_congr_left
    intro p hp
    exact (sortedHist_counts events p hp).1
  · rw [List.all_eq_true]
    intro p hp
    exact decide_eq_true_eq.mpr (sortedHist_counts events p hp).2
  · rw [List.all_eq_true]
    intro e he
    rw [List.any_eq_true]
    obtain ⟨n, hn⟩ := sortedHist_covers events e he
    exact ⟨(e.domain, n), hn, decide_eq_true_eq.mpr rfl⟩
  · rw [localSummary, if_neg (fun hc => h (List.length_eq_zero.mp hc))]

/-- C6 witness: on a three-event snapshot (two climate events, one conflict;
one critical, one high) the summary reads "3 active events across 2 climate,
1 conflict. Most significant: G2 (L2); G3 (L3)." with histogram sorted by
count descending and the critical event listed first. -/
theorem C6_witness :
    evC6 ≠ [] ∧
    localSummary evC6 =
      ("3 active events across 2 climate, 1 conflict. Most significant: G2 (L2); G3 (L3).") ∧
    sortedHist evC6 = [(Domain.climate, 2), (Domain.conflict, 1)] ∧
    urgentOf evC6 = [eG2, eG3] ∧
    urgentOf evC6 =
      ((evC6.filter fun e => decide (e.severity = Severity.critical)) ++
        (evC6.filter fun e => decide (e.severity = Severity.high))).take 3 := by
  refine ⟨by simp [evC6], localSummary_evC6, rfl, rfl, ?_⟩
  exact (C6_local_summary_format evC6 (by simp [evC6])).2.2.2.2.2.1
